import Mathlib

/-!
Verification of the level-set machine-learning core: a shallow embedding of
`level_set_machine_learning/core/datasets_handler.py` and
`rbls/feature_maps/dim2/simple_feature_map.py`, with theorems settling the
specification claims about partitioning, dataset conversion, and the 2-D
feature-map engine.

Numeric values are modelled over an arbitrary linear ordered field `R`
(instantiable with `ℚ` for concrete evaluation); external numeric primitives
(`numpy.sqrt`, `numpy.pi`, `scipy.ndimage.gaussian_filter1d`,
`skfmm.distance`) are passed in as parameters, since they are external
collaborators of the code under verification.
-/

set_option autoImplicit false

namespace LSML

/-- The Python exception kinds raised by the code under verification. -/
inductive PyErr where
  | assertionError
  | indexError
  | attributeError
  | typeError
  | valueError
  | fileExistsError
  deriving DecidableEq, Repr

/-- `true` exactly on the "configuration / type" errors of the spec's error
taxonomy (`TypeError` and `ValueError`). -/
def isConfigErr {α : Type} : Except PyErr α → Bool
  | .error .typeError => true
  | .error .valueError => true
  | _ => false

/-- `true` iff the computation returned normally. -/
def excOk {ε α : Type} : Except ε α → Bool
  | .ok _ => true
  | .error _ => false

section DatasetsHandler

variable {R : Type} [LinearOrderedField R]

/-- Numpy dtypes distinguished by the validation code in
`convert_to_hdf5` (`numpy.float`, `numpy.bool`, anything else). -/
inductive Dtype where
  | float64
  | boolean
  | intlike
  deriving DecidableEq, Repr

/-- A numpy `ndarray` as seen by `datasets_handler.py`: a dtype tag, a shape,
and row-major data indexed by multi-indices.  Boolean arrays are carried with
their numeric (0/1) values, which is all the conversion code reads of them. -/
structure DArr (R : Type) where
  dtype : Dtype
  shape : List Nat
  data : List Nat → R

/-- `ndarray.ndim`. -/
def DArr.ndim {R : Type} (a : DArr R) : Nat := a.shape.length

/-- All multi-indices of a given shape, in row-major order. -/
def enumIdx : List Nat → List (List Nat)
  | [] => [[]]
  | d :: ds => (List.range d).flatMap fun i => (enumIdx ds).map fun p => i :: p

/-- `ndarray.sum()` over every element. -/
def DArr.sumAll (a : DArr R) : R := ((enumIdx a.shape).map a.data).sum

/-- `ndarray.size`. -/
def DArr.size {R : Type} (a : DArr R) : Nat := a.shape.prod

/-- `ndarray.mean()`. -/
def DArr.meanAll (a : DArr R) : R := a.sumAll / (a.size : R)

/-- `ndarray.std()`, with the square root supplied as the external primitive
`sqrtR`. -/
def DArr.stdAll (sqrtR : R → R) (a : DArr R) : R :=
  sqrtR ((((enumIdx a.shape).map fun p => (a.data p - a.meanAll) * (a.data p - a.meanAll)).sum)
    / (a.size : R))

/-- `(imgs[i] - imgs[i].mean()) / imgs[i].std()`: per-image normalization
performed during conversion. -/
def normalizeImg (sqrtR : R → R) (a : DArr R) : DArr R :=
  { dtype := a.dtype, shape := a.shape,
    data := fun p => (a.data p - a.meanAll) / a.stdAll sqrtR }

/-- One group `example-<i>` of the hdf5 store: image, segmentation,
distance transform, the `dx` attribute, and the compression toggle in
force when the group was written. -/
structure ExampleGroup (R : Type) where
  img : DArr R
  seg : DArr R
  dist : DArr R
  dx : List R
  compressed : Bool

/-- The on-disk store: the list of example groups, in index order. -/
abbrev Store (R : Type) := List (ExampleGroup R)

/-- The per-example validation block of `convert_to_hdf5` (lines 147-171):
image dtype must be float, segmentation dtype must be bool, both ranks must
match the first image's rank, and the shapes must agree. -/
def validatePair (ndim : Nat) (img seg : DArr R) : Except PyErr Unit :=
  if img.dtype ≠ Dtype.float64 then .error .typeError
  else if seg.dtype ≠ Dtype.boolean then .error .typeError
  else if img.ndim ≠ ndim then .error .valueError
  else if seg.ndim ≠ ndim then .error .valueError
  else if img.shape ≠ seg.shape then .error .valueError
  else .ok ()

/-- The validation loop `for i in range(n_examples)` of `convert_to_hdf5`,
run after the length check has ensured the two lists are aligned. -/
def validateExamples (ndim : Nat) : List (DArr R) → List (DArr R) → Except PyErr Unit
  | img :: is, seg :: ss =>
    match validatePair ndim img seg with
    | .error e => .error e
    | .ok _ => validateExamples ndim is ss
  | _, _ => .ok ()

/-- The write loop of `convert_to_hdf5`: for each example, store the
(optionally normalized) image, the segmentation, the signed distance
transform `skfmm.distance(2*seg.astype(float) - 1, dx=dx[i])`, and the
`dx` attribute. -/
def writeExamples (skfmmDist : DArr R → List R → DArr R) (sqrtR : R → R)
    (compress normalize : Bool) :
    List (DArr R) → List (DArr R) → List (List R) → Store R
  | img :: is, seg :: ss, dxr :: ds =>
    { img := if normalize then normalizeImg sqrtR img else img,
      seg := seg,
      dist := skfmmDist
        { dtype := Dtype.float64, shape := seg.shape,
          data := fun p => 2 * seg.data p - 1 } dxr,
      dx := dxr,
      compressed := compress } :: writeExamples skfmmDist sqrtR compress normalize is ss ds
  | _, _, _ => []

/-- `DatasetsHandler.convert_to_hdf5`.  `fileExists` models
`os.path.exists(self.h5_file)`; `skfmmDist` and `sqrtR` are the external
`skfmm.distance` and square-root primitives.  The function either raises
(returning `.error`) before anything is written, or returns the fully
written store: the h5 file is only created (line 184) after the whole
validation block has passed, so a validation failure writes nothing. -/
def convert_to_hdf5 (skfmmDist : DArr R → List R → DArr R) (sqrtR : R → R)
    (fileExists : Bool) (imgs segs : List (DArr R))
    (dxOpt : Option (List (List R))) (compress normalize : Bool) :
    Except PyErr (Store R) :=
  -- line 131: abort when the destination store already exists
  if fileExists then .error .fileExistsError
  else
    -- line 137: `ndim = imgs[0].ndim` — IndexError when `imgs` is empty,
    -- and this read happens before the count-mismatch check of line 143
    match imgs.get? 0 with
    | none => .error .indexError
    | some img0 =>
      let ndim := img0.ndim
      if imgs.length ≠ segs.length then .error .valueError
      else
        match validateExamples ndim imgs segs with
        | .error e => .error e
        | .ok _ =>
          match dxOpt with
          | none =>
            .ok (writeExamples skfmmDist sqrtR compress normalize imgs segs
              (List.replicate imgs.length (List.replicate ndim (1 : R))))
          | some dxm =>
            -- line 177: `dx.shape != (n_examples, ndim)`
            if dxm.length = imgs.length ∧ dxm.all fun row => row.length = ndim then
              .ok (writeExamples skfmmDist sqrtR compress normalize imgs segs dxm)
            else .error .valueError

/-- A partition assignment: the three per-subset key lists held in
`self.datasets`. -/
structure DsAssign where
  training : List Int
  validation : List Int
  testing : List Int

/-- `DatasetsHandler.__init__` line 78: `self.datasets = None`.  Nothing in
the module ever rebinds this attribute to a dictionary, so every assignment
method runs with `datasets = None`. -/
def initDatasets : Option DsAssign := none

/-- `DatasetsHandler.assign_examples_by_indices`.  Each validation line reads
`all([isinstance(index) for index in lst])`: `isinstance` called with a
single argument raises `TypeError`, so the comprehension raises as soon as
the list is non-empty, while an empty list yields `all([]) = True` and
passes.  When all three lists are empty, the subsequent
`self.datasets[TRAINING_DATASET_KEY] = ...` performs item assignment on
`None` (see `initDatasets`), which also raises `TypeError`. -/
def assign_examples_by_indices (datasets : Option DsAssign)
    (training validation testing : List Int) : Except PyErr DsAssign :=
  match training with
  | _ :: _ => .error .typeError
  | [] =>
    match validation with
    | _ :: _ => .error .typeError
    | [] =>
      match testing with
      | _ :: _ => .error .typeError
      | [] =>
        match datasets with
        | none => .error .typeError
        | some _ => .ok { training := [], validation := [], testing := [] }

/-- `numpy.where(mat == v)` for a rank-2 array: the pair of row- and
column-index arrays of the matching positions, returned as a list of index
arrays (one per array axis, hence always of length 2 here). -/
def npWhere2 (mat : List (List Nat)) (v : Nat) : List (List Nat) :=
  [ (mat.enum.flatMap fun p =>
      (p.2.enum.filter fun q => q.2 = v).map fun _ => p.1),
    (mat.enum.flatMap fun p =>
      (p.2.enum.filter fun q => q.2 = v).map fun q => q.1) ]

/-- Numpy "fancy" indexing `a[ixs]` of a 1-D array by a tuple of index
arrays: supplying more index arrays than the array has axes raises
`IndexError: too many indices for array`. -/
def npFancyIndex1 {α : Type} (a : List α) (ixs : List (List Nat)) :
    Except PyErr (List α) :=
  match ixs with
  | [] => .ok a
  | [ix] =>
    if ix.all fun i => i < a.length then .ok (ix.filterMap a.get?)
    else .error .indexError
  | _ => .error .indexError

/-- The `for idataset_key, dataset_key in enumerate(_iterate_dataset_keys())`
loop of `assign_examples_randomly`, iterated for the three dataset keys
`0, 1, 2`.  Each step computes
`indices_for_dataset_key = numpy.where(indicators == idataset_key)`, a
pair of row/column index arrays for the rank-2 indicator matrix, then
indexes the 1-D key array with that pair
(`sub_keys_as_array[indices_for_dataset_key]`) and stores the result into
`self.datasets[dataset_key]`. -/
def assignLoop (datasets : Option DsAssign) (sub_keys : List Int)
    (indicators : List (List Nat)) : Except PyErr DsAssign :=
  match npFancyIndex1 sub_keys (npWhere2 indicators 0) with
  | .error e => .error e
  | .ok l0 =>
    match datasets with
    | none => .error .typeError
    | some _ =>
      match npFancyIndex1 sub_keys (npWhere2 indicators 1) with
      | .error e => .error e
      | .ok l1 =>
        match npFancyIndex1 sub_keys (npWhere2 indicators 2) with
        | .error e => .error e
        | .ok l2 => .ok { training := l0, validation := l1, testing := l2 }

/-- `DatasetsHandler.assign_examples_randomly`.  `keys` models the store's
example keys (identified with their integer indices), `choice` models
`random_state.choice(keys, replace=False, size=sz)` and `multinomial`
models `random_state.multinomial(n=1, pvals=probabilities, size=n_keys)`
(a list of one-hot indicator rows); both are external numpy randomness,
abstracted as functions of the probability vector and the draw count. -/
def assign_examples_randomly (datasets : Option DsAssign) (keys : List Int)
    (probabilities : List R) (subset_size : Option Nat)
    (choice : Nat → List Int)
    (multinomial : List R → Nat → List (List Nat)) :
    Except PyErr DsAssign :=
  match subset_size with
  | some k =>
    if k > keys.length then .error .valueError
    else
      let sub_keys := choice k
      assignLoop datasets sub_keys (multinomial probabilities sub_keys.length)
  | none =>
    let sub_keys := choice keys.length
    assignLoop datasets sub_keys (multinomial probabilities sub_keys.length)

/-- The pairwise validation conditions of the claim about conversion
rejection: image dtype not floating point, or segmentation dtype not
boolean, or the image/segmentation pair differing in rank or shape (a rank
difference is a shape-list difference). -/
def badPair {R : Type} (img seg : DArr R) : Prop :=
  img.dtype ≠ Dtype.float64 ∨ seg.dtype ≠ Dtype.boolean ∨ img.shape ≠ seg.shape

instance {R : Type} (img seg : DArr R) : Decidable (badPair img seg) := by
  unfold badPair; infer_instance

/-- Concrete conversion input with a non-float image dtype, used to witness
the rejection theorem. -/
def wImg : DArr ℚ := ⟨Dtype.intlike, [2, 2], fun _ => 0⟩

/-- Concrete boolean segmentation matching `wImg` in shape. -/
def wSeg : DArr ℚ := ⟨Dtype.boolean, [2, 2], fun _ => 0⟩

end DatasetsHandler

section FeatureMapDefs

variable {R : Type} [LinearOrderedField R]

/-- A numpy `ndarray` as seen by `simple_feature_map.py`: a dynamic shape
and row-major data as a total function on multi-indices (only in-shape
indices are ever read by the embedded code). -/
structure NDArr (α : Type) where
  shape : List Nat
  data : List Nat → α

/-- `ndarray.ndim`. -/
def NDArr.ndim {α : Type} (a : NDArr α) : Nat := a.shape.length

/-- The extent of axis `k`. -/
def NDArr.dim {α : Type} (a : NDArr α) (k : Nat) : Nat := a.shape.getD k 0

/-- `ndarray.map`-style elementwise application (numpy ufunc on one array,
always producing a fresh array of the same shape). -/
def NDArr.map {α β : Type} (f : α → β) (a : NDArr α) : NDArr β :=
  ⟨a.shape, fun p => f (a.data p)⟩

/-- All rank-2 multi-indices `[i, j]` of an `m × n` array, in row-major
order. -/
def idx2 (m n : Nat) : List (List Nat) :=
  (List.range m).flatMap fun i => (List.range n).map fun j => [i, j]

/-- `ndarray.sum()` for a rank-2 array. -/
def NDArr.sum2 (a : NDArr R) : R := ((idx2 (a.dim 0) (a.dim 1)).map a.data).sum

/-- The row-major list of positions where a rank-2 boolean mask is true. -/
def maskedIdx (mask : NDArr Bool) : List (List Nat) :=
  (idx2 (mask.dim 0) (mask.dim 1)).filter fun p => mask.data p

/-- `mask.sum()` for a rank-2 boolean array: the number of `True` pixels. -/
def countTrue (mask : NDArr Bool) : Nat := (maskedIdx mask).length

/-- `(u > 0)`: the boolean indicator array of the positive region. -/
def heaviside (u : NDArr R) : NDArr Bool :=
  ⟨u.shape, fun p => decide (0 < u.data p)⟩

/-- `H.astype(numpy.float)`. -/
def boolToR (h : NDArr Bool) : NDArr R :=
  ⟨h.shape, fun p => if h.data p then 1 else 0⟩

/-- Unchecked elementwise combination, used only where the two operands
have the same shape by construction (as numpy would verify). -/
def ew2u {α β γ : Type} (f : α → β → γ) (a : NDArr α) (b : NDArr β) : NDArr γ :=
  ⟨a.shape, fun p => f (a.data p) (b.data p)⟩

/-- Elementwise `a + b` with numpy's shape agreement check.  General
broadcasting is not modelled: every use in the embedded code combines
arrays of identical shape, and a mismatch raises like numpy's
incompatible-shape `ValueError`. -/
def ewAdd (a b : NDArr R) : Except PyErr (NDArr R) :=
  if a.shape = b.shape then .ok (ew2u (fun x y => x + y) a b)
  else .error .valueError

/-- Elementwise `a * b` with the same shape agreement check as `ewAdd`. -/
def ewMul (a b : NDArr R) : Except PyErr (NDArr R) :=
  if a.shape = b.shape then .ok (ew2u (fun x y => x * y) a b)
  else .error .valueError

/-- `numpy.zeros((m, n))`. -/
def zeros2 (m n : Nat) : NDArr R := ⟨[m, n], fun _ => 0⟩

/-- `numpy.zeros((m, n, k))`. -/
def zeros3 (m n k : Nat) : NDArr R := ⟨[m, n, k], fun _ => 0⟩

/-- `numpy.zeros_like(a)`. -/
def zerosLike (a : NDArr R) : NDArr R := ⟨a.shape, fun _ => 0⟩

/-- The pure effect of `F[mask, k] = v` for scalar `v` on the rank-3
feature tensor. -/
def maskedSetScalarP {α : Type} (F : NDArr α) (mask : NDArr Bool) (k : Nat)
    (v : α) : NDArr α :=
  ⟨F.shape, fun p => match p with
    | [i, j, kk] => if mask.data [i, j] ∧ kk = k then v else F.data p
    | _ => F.data p⟩

/-- `F[mask, k] = v` (scalar right-hand side): boolean indexing requires
the mask's shape to match the leading axes of `F`; a scalar broadcasts to
any number of selected pixels, including zero. -/
def maskedSetScalar {α : Type} (F : NDArr α) (mask : NDArr Bool) (k : Nat)
    (v : α) : Except PyErr (NDArr α) :=
  if mask.shape = F.shape.take 2 then .ok (maskedSetScalarP F mask k v)
  else .error .indexError

/-- The pure effect of `F[mask, k] = src[mask]`: every masked pixel
receives the corresponding pixel of `src` (the row-major flattening used
by numpy on both sides pairs identical positions). -/
def maskedSetVecP {α : Type} (F : NDArr α) (mask : NDArr Bool) (k : Nat)
    (src : NDArr α) : NDArr α :=
  ⟨F.shape, fun p => match p with
    | [i, j, kk] => if mask.data [i, j] ∧ kk = k then src.data [i, j] else F.data p
    | _ => F.data p⟩

/-- `F[mask, k] = src[mask]`, with the two boolean-indexing shape checks. -/
def maskedSetVec {α : Type} (F : NDArr α) (mask : NDArr Bool) (k : Nat)
    (src : NDArr α) : Except PyErr (NDArr α) :=
  if mask.shape = F.shape.take 2 ∧ src.shape = mask.shape then
    .ok (maskedSetVecP F mask k src)
  else .error .indexError

/-- `F[mask, k]` as a value: the row-major list of feature-`k` entries at
masked pixels. -/
def maskedFeat {α : Type} (F : NDArr α) (mask : NDArr Bool) (k : Nat) :
    Except PyErr (List α) :=
  if mask.shape = F.shape.take 2 then
    .ok ((maskedIdx mask).map fun p => F.data (p ++ [k]))
  else .error .indexError

/-- `a[mask]` for a rank-2 array `a`: boolean indexing requires equal
shapes and yields the masked values in row-major order. -/
def maskedVals {α : Type} (a : NDArr α) (mask : NDArr Bool) :
    Except PyErr (List α) :=
  if mask.shape = a.shape then .ok ((maskedIdx mask).map a.data)
  else .error .indexError

/-- `l[0]`: indexing the first element of a (possibly empty) extracted
vector, as in `F[mask, 3][0]`; empty selection raises `IndexError`. -/
def headOrErr {α : Type} : List α → Except PyErr α
  | [] => .error .indexError
  | x :: _ => .ok x

/-- `l[i]` with bounds check. -/
def listGetE {α : Type} (l : List α) (i : Nat) : Except PyErr α :=
  match l.get? i with
  | some x => .ok x
  | none => .error .indexError

/-- `numpy.mean` of a 1-D extraction. -/
def npMean (l : List R) : R := l.sum / (l.length : R)

/-- `numpy.std` of a 1-D extraction, with the square root passed in as the
external primitive. -/
def npStd (sqrtR : R → R) (l : List R) : R :=
  sqrtR (((l.map fun x => (x - npMean l) * (x - npMean l)).sum) / (l.length : R))

/-- `numpy.gradient` along axis 0 of a rank-2 array with spacing `d`:
one-sided differences at the edges, central differences inside. -/
def gradAxis0 (a : NDArr R) (d : R) : NDArr R :=
  ⟨a.shape, fun p => match p with
    | [i, j] =>
      if i = 0 then (a.data [1, j] - a.data [0, j]) / d
      else if i = a.dim 0 - 1 then
        (a.data [a.dim 0 - 1, j] - a.data [a.dim 0 - 2, j]) / d
      else (a.data [i + 1, j] - a.data [i - 1, j]) / (2 * d)
    | _ => 0⟩

/-- `numpy.gradient` along axis 1 of a rank-2 array with spacing `d`. -/
def gradAxis1 (a : NDArr R) (d : R) : NDArr R :=
  ⟨a.shape, fun p => match p with
    | [i, j] =>
      if j = 0 then (a.data [i, 1] - a.data [i, 0]) / d
      else if j = a.dim 1 - 1 then
        (a.data [i, a.dim 1 - 1] - a.data [i, a.dim 1 - 2]) / d
      else (a.data [i, j + 1] - a.data [i, j - 1]) / (2 * d)
    | _ => 0⟩

/-- The body of `numpy.gradient` for a rank-2 array once the per-axis
spacings are fixed: each differentiated axis must have at least
`edge_order + 1 = 2` elements. -/
def grad2sized (a : NDArr R) (d0 d1 : R) :
    Except PyErr (NDArr R × NDArr R) :=
  if a.dim 0 < 2 ∨ a.dim 1 < 2 then .error .valueError
  else .ok (gradAxis0 a d0, gradAxis1 a d1)

/-- `numpy.gradient(a, *dx)` for a rank-2 array: zero spacing arguments
mean unit spacing, one spacing argument applies to both axes, two give
per-axis spacings, and any other count raises `TypeError`. -/
def npGradient2 (a : NDArr R) (dx : List R) :
    Except PyErr (NDArr R × NDArr R) :=
  match dx with
  | [] => grad2sized a 1 1
  | [d] => grad2sized a d d
  | [d0, d1] => grad2sized a d0 d1
  | _ => .error .typeError

/-- The external numeric primitives used by `simple_feature_map`:
`numpy.sqrt` (also standing for `** 0.5` on non-negative arrays),
`numpy.pi`, and `scipy.ndimage.gaussian_filter1d` with argument order
(input, sigma, axis, order). -/
structure FMExtern (R : Type) where
  sqrt : R → R
  pi : R
  gf1d : NDArr R → R → Nat → Nat → NDArr R

/-- The memoization directive of `__call__`: `None`, `'create'` or
`'use'`. -/
inductive Memo where
  | nodirective
  | create
  | use
  deriving DecidableEq, Repr

/-- The engine instance's mutable cache attributes: `self.ii`, `self.jj`,
`self.blurs`, `self.gmags`.  Each is absent (`none`) until a `'create'`
call sets it; the rank-3 numpy stacks `blurs`/`gmags` are modelled as
lists of rank-2 slices. -/
structure FMState (R : Type) where
  ii : Option (NDArr R)
  jj : Option (NDArr R)
  blurs : Option (List (NDArr R))
  gmags : Option (List (NDArr R))

/-- A fresh engine instance, before any `'create'` call. -/
def FMState.empty {R : Type} : FMState R := ⟨none, none, none, none⟩

namespace simple_feature_map

/-- `nlocalimg = 2` (image value, gradient magnitude). -/
def nlocalimg : Nat := 2

/-- `nlocalseg = 1` (distance from center of mass). -/
def nlocalseg : Nat := 1

/-- `nglobalimg = 2` (mean, standard deviation). -/
def nglobalimg : Nat := 2

/-- `nglobalseg = 7` (area, length, isoperimetric ratio, four moments). -/
def nglobalseg : Nat := 7

/-- `self.nfeatures = (nlocalimg + nglobalimg) * len(sigmas) + nlocalseg +
nglobalseg`. -/
def nfeatures {R : Type} (sigmas : List R) : Nat :=
  (nlocalimg + nglobalimg) * sigmas.length + nlocalseg + nglobalseg

/-- The first feature index of scale `isig`:
`nglobalseg + nlocalseg + isig * (nlocalimg + nglobalimg)`. -/
def ijump (isig : Nat) : Nat :=
  nglobalseg + nlocalseg + isig * (nlocalimg + nglobalimg)

variable {R : Type} [LinearOrderedField R]

/-- The first index grid `numpy.indices(img.shape)[0]` already scaled by
`dx[0]` (`ii *= dx[0]`). -/
def mkII (m n : Nat) (d0 : R) : NDArr R :=
  ⟨[m, n], fun p => match p with
    | [i, _] => (i : R) * d0
    | _ => 0⟩

/-- The second index grid scaled by `dx[1]` (`jj *= dx[1]`). -/
def mkJJ (m n : Nat) (d1 : R) : NDArr R :=
  ⟨[m, n], fun p => match p with
    | [_, j] => (j : R) * d1
    | _ => 0⟩

/-- The blur loop `for axis in range(len(dx)): blur = gf1d(blur,
sigma/dx[axis], axis=axis)`, iterated over the given axis list. -/
def gfFold (ext : FMExtern R) (sigma : R) (dx : List R) :
    NDArr R → List Nat → NDArr R
  | b, [] => b
  | b, ax :: rest =>
    gfFold ext sigma dx (ext.gf1d b (sigma / dx.getD ax 0) ax 0) rest

/-- The smoothed image of one scale: the gaussian blur chain for
`sigma > 0` and the raw image otherwise (lines 122-131). -/
def mkBlur (ext : FMExtern R) (img : NDArr R) (dx : List R) (sigma : R) :
    NDArr R :=
  if 0 < sigma then gfFold ext sigma dx img (List.range dx.length) else img

/-- One gradient-magnitude accumulation term of the smoothing loop:
`gf1d(img/dx[axis], sigma/dx[axis], axis=axis, order=1) ** 2`. -/
def gmagTerm (ext : FMExtern R) (img : NDArr R) (dx : List R) (sigma : R)
    (ax : Nat) : NDArr R :=
  (ext.gf1d (img.map fun x => x / dx.getD ax 0) (sigma / dx.getD ax 0) ax 1).map
    fun x => x * x

/-- The `gmag += ...` accumulation loop over the axis list. -/
def gmagFold (ext : FMExtern R) (sigma : R) (dx : List R) (img : NDArr R) :
    NDArr R → List Nat → Except PyErr (NDArr R)
  | g, [] => .ok g
  | g, ax :: rest =>
    match ewAdd g (gmagTerm ext img dx sigma ax) with
    | .error e => .error e
    | .ok g2 => gmagFold ext sigma dx img g2 rest

/-- The gradient-magnitude array of one scale: the separable-derivative
accumulation followed by `** 0.5` for `sigma > 0`, and
`numpy.sqrt(gx**2 + gy**2)` of the direct `numpy.gradient` otherwise. -/
def mkGmag (ext : FMExtern R) (img : NDArr R) (dx : List R) (sigma : R) :
    Except PyErr (NDArr R) :=
  if 0 < sigma then
    match gmagFold ext sigma dx img (zerosLike img) (List.range dx.length) with
    | .error e => .error e
    | .ok g => .ok (g.map ext.sqrt)
  else
    match npGradient2 img dx with
    | .error e => .error e
    | .ok (gx, gy) =>
      .ok ((ew2u (fun x y => x + y) (gx.map fun x => x * x)
        (gy.map fun x => x * x)).map ext.sqrt)

/-- `stack[i]` for a cached rank-3 stack. -/
def stackGet (s : List (NDArr R)) (i : Nat) : Except PyErr (NDArr R) :=
  listGetE s i

/-- `stack[i] = a` for a cached rank-3 stack: the slot must exist and the
assigned slice must match the slot's shape (numpy raises `ValueError` on
a shape-incompatible slice assignment). -/
def stackSet (s : List (NDArr R)) (i : Nat) (a : NDArr R) :
    Except PyErr (List (NDArr R)) :=
  match s.get? i with
  | none => .error .indexError
  | some old =>
    if a.shape = old.shape then .ok (s.set i a) else .error .valueError

/-- The in-place loop of the `'create'` branch for `sigma > 0`
(lines 144-151): each axis updates `self.blurs[isig]` through `gf1d` and
accumulates a squared-derivative term into `self.gmags[isig]`. -/
def createAxes (ext : FMExtern R) (sigma : R) (dx : List R) (img : NDArr R)
    (isig : Nat) :
    List (NDArr R) → List (NDArr R) → List Nat →
    Except PyErr (List (NDArr R) × List (NDArr R))
  | bs, gs, [] => .ok (bs, gs)
  | bs, gs, ax :: rest =>
    match stackGet bs isig with
    | .error e => .error e
    | .ok cur =>
      match stackSet bs isig (ext.gf1d cur (sigma / dx.getD ax 0) ax 0) with
      | .error e => .error e
      | .ok bs2 =>
        match stackGet gs isig with
        | .error e => .error e
        | .ok gcur =>
          match ewAdd gcur (gmagTerm ext img dx sigma ax) with
          | .error e => .error e
          | .ok g2 =>
            match stackSet gs isig g2 with
            | .error e => .error e
            | .ok gs2 => createAxes ext sigma dx img isig bs2 gs2 rest

/-- The whole `'create'` branch for one scale (lines 141-157): seed
`self.blurs[isig]` with the image and `self.gmags[isig]` with zeros, run
the axis loop and take `** 0.5` when `sigma > 0`; otherwise store the
image and the direct-gradient magnitude (the source's final
`d = self.blurs[isig] - img` is a dead local with no effect). -/
def createScale (ext : FMExtern R) (sigma : R) (dx : List R) (img : NDArr R)
    (isig : Nat) (bs gs : List (NDArr R)) :
    Except PyErr (List (NDArr R) × List (NDArr R)) :=
  if 0 < sigma then
    match stackSet bs isig img with
    | .error e => .error e
    | .ok bs1 =>
      match stackSet gs isig (zerosLike img) with
      | .error e => .error e
      | .ok gs1 =>
        match createAxes ext sigma dx img isig bs1 gs1 (List.range dx.length) with
        | .error e => .error e
        | .ok (bs2, gs2) =>
          match stackGet gs2 isig with
          | .error e => .error e
          | .ok g =>
            match stackSet gs2 isig (g.map ext.sqrt) with
            | .error e => .error e
            | .ok gs3 => .ok (bs2, gs3)
  else
    match stackSet bs isig img with
    | .error e => .error e
    | .ok bs1 =>
      match npGradient2 img dx with
      | .error e => .error e
      | .ok (gx, gy) =>
        match stackSet gs isig ((ew2u (fun x y => x + y)
            (gx.map fun x => x * x) (gy.map fun x => x * x)).map ext.sqrt) with
        | .error e => .error e
        | .ok gs1 => .ok (bs1, gs1)

/-- The four per-scale feature assignments (lines 163-166):
`F[mask, ijump] = blur[mask]`, `F[mask, ijump+1] = gmag[mask]`,
`F[mask, ijump+2] = blur[H].mean()`, `F[mask, ijump+3] = blur[H].std()`. -/
def writeScaleFeats (ext : FMExtern R) (mask Hm : NDArr Bool) (isig : Nat)
    (blur gmag F : NDArr R) : Except PyErr (NDArr R) :=
  match maskedSetVec F mask (ijump isig) blur with
  | .error e => .error e
  | .ok F1 =>
    match maskedSetVec F1 mask (ijump isig + 1) gmag with
    | .error e => .error e
    | .ok F2 =>
      match maskedVals blur Hm with
      | .error e => .error e
      | .ok vals =>
        match maskedSetScalar F2 mask (ijump isig + 2) (npMean vals) with
        | .error e => .error e
        | .ok F3 => maskedSetScalar F3 mask (ijump isig + 3) (npStd ext.sqrt vals)

/-- The `for isig, sigma in enumerate(self.sigmas)` loop (lines 117-166).
The directive selects where `blur` and `gmag` come from: recomputed
locally (`None`), computed into the cache stacks and then read back
(`'create'`, allocating absent stacks as `numpy.zeros((len(sigmas),) +
img.shape)` via the `hasattr` tests), or read from the cache (`'use'`,
`AttributeError` when a stack is absent). -/
def scaleLoop (ext : FMExtern R) (nsig m n : Nat) (dx : List R)
    (img : NDArr R) (mask Hm : NDArr Bool) (memo : Memo) :
    Nat → List R → NDArr R → Option (List (NDArr R)) →
    Option (List (NDArr R)) →
    Except PyErr (NDArr R × Option (List (NDArr R)) × Option (List (NDArr R)))
  | _, [], F, obs, ogs => .ok (F, obs, ogs)
  | isig, sigma :: rest, F, obs, ogs =>
    match memo with
    | .nodirective =>
      match mkGmag ext img dx sigma with
      | .error e => .error e
      | .ok gmag =>
        match writeScaleFeats ext mask Hm isig (mkBlur ext img dx sigma) gmag F with
        | .error e => .error e
        | .ok F2 =>
          scaleLoop ext nsig m n dx img mask Hm memo (isig + 1) rest F2 obs ogs
    | .create =>
      let bs0 := obs.getD (List.replicate nsig (zeros2 m n))
      let gs0 := ogs.getD (List.replicate nsig (zeros2 m n))
      match createScale ext sigma dx img isig bs0 gs0 with
      | .error e => .error e
      | .ok (bs1, gs1) =>
        match stackGet bs1 isig with
        | .error e => .error e
        | .ok blur =>
          match stackGet gs1 isig with
          | .error e => .error e
          | .ok gmag =>
            match writeScaleFeats ext mask Hm isig blur gmag F with
            | .error e => .error e
            | .ok F2 =>
              scaleLoop ext nsig m n dx img mask Hm memo (isig + 1) rest F2
                (some bs1) (some gs1)
    | .use =>
      match obs with
      | none => .error .attributeError
      | some bs =>
        match ogs with
        | none => .error .attributeError
        | some gs =>
          match stackGet bs isig with
          | .error e => .error e
          | .ok blur =>
            match stackGet gs isig with
            | .error e => .error e
            | .ok gmag =>
              match writeScaleFeats ext mask Hm isig blur gmag F with
              | .error e => .error e
              | .ok F2 =>
                scaleLoop ext nsig m n dx img mask Hm memo (isig + 1) rest F2
                  obs ogs

/-- The index-grid block (lines 95-103): recompute and scale the grids for
directive `None`, compute and store them into `self.ii`/`self.jj` for
`'create'`, and read the stored attributes for `'use'` (`AttributeError`
when absent). -/
def memoGrids (st : FMState R) (m n : Nat) (dx : List R) (memo : Memo) :
    Except PyErr (NDArr R × NDArr R × FMState R) :=
  match memo with
  | .nodirective =>
    match listGetE dx 0 with
    | .error e => .error e
    | .ok d0 =>
      match listGetE dx 1 with
      | .error e => .error e
      | .ok d1 => .ok (mkII m n d0, mkJJ m n d1, st)
  | .create =>
    match listGetE dx 0 with
    | .error e => .error e
    | .ok d0 =>
      match listGetE dx 1 with
      | .error e => .error e
      | .ok d1 =>
        .ok (mkII m n d0, mkJJ m n d1,
          { st with ii := some (mkII m n d0), jj := some (mkJJ m n d1) })
  | .use =>
    match st.ii with
    | none => .error .attributeError
    | some ii =>
      match st.jj with
      | none => .error .attributeError
      | some jj => .ok (ii, jj, st)

/-- The pure effect of line 114:
`F[mask, 7] = numpy.sqrt((ii[mask] - c3)**2 + (jj[mask] - c4)**2)`, where
`c3`/`c4` are the extracted first-moment scalars; the row-major pairing of
the boolean extraction and assignment writes, at each masked pixel, the
distance of that pixel's scaled index coordinates from the centroid. -/
def maskedSetDistCom (ext : FMExtern R) (F : NDArr R) (mask : NDArr Bool)
    (ii jj : NDArr R) (c3 c4 : R) : NDArr R :=
  ⟨F.shape, fun p => match p with
    | [i, j, kk] =>
      if mask.data [i, j] ∧ kk = 7 then
        ext.sqrt ((ii.data [i, j] - c3) * (ii.data [i, j] - c3) +
          (jj.data [i, j] - c4) * (jj.data [i, j] - c4))
      else F.data p
    | _ => F.data p⟩

/-- `simple_feature_map.__call__(u, img, dist, mask, dx, memoize)`,
threading the engine instance's cache attributes explicitly as `st`.
Structure mirrors the source: the rank assertion, the spacing default,
area/length/isoperimetric assignments, the index-grid block, moments,
distance-from-centroid (whose `F[mask, 3][0]` read raises `IndexError`
when no pixel is masked), and the per-scale loop. -/
def call (ext : FMExtern R) (sigmas : List R) (st : FMState R)
    (u img dist : NDArr R) (mask : NDArr Bool) (dxOpt : Option (List R))
    (memo : Memo) : Except PyErr (NDArr R × FMState R) :=
  -- line 67: assert u.ndim == 2 and img.ndim == 2 and dist.ndim == 2
  --          and mask.ndim == 2
  if u.ndim = 2 ∧ img.ndim = 2 ∧ dist.ndim = 2 ∧ mask.ndim = 2 then
    -- line 71: dx = np.ones(img.ndim) if dx is None else dx
    let dx := dxOpt.getD (List.replicate 2 1)
    let m := img.dim 0
    let n := img.dim 1
    -- line 73: F = np.zeros(img.shape + (self.nfeatures,))
    let F0 : NDArr R := zeros3 m n (nfeatures sigmas)
    let pdx := dx.prod
    -- line 76: H = (u > 0)
    let Hm := heaviside u
    -- line 79: A = H.sum() * pdx
    let A : R := (countTrue Hm : R) * pdx
    match maskedSetScalar F0 mask 0 A with
    | .error e => .error e
    | .ok F1 =>
      -- line 82: dHx, dHy = np.gradient(H.astype(np.float), *dx)
      match npGradient2 (boolToR Hm) dx with
      | .error e => .error e
      | .ok (dHx, dHy) =>
        let gmagH := (ew2u (fun x y => x + y) (dHx.map fun x => x * x)
          (dHy.map fun x => x * x)).map ext.sqrt
        -- line 89: L = gmagH.sum() * pdx
        let L := gmagH.sum2 * pdx
        match maskedSetScalar F1 mask 1 L with
        | .error e => .error e
        | .ok F2 =>
          -- line 93: F[mask, 2] = 4 * np.pi * A / L**2
          match maskedSetScalar F2 mask 2 (4 * ext.pi * A / (L * L)) with
          | .error e => .error e
          | .ok F3 =>
            match memoGrids st m n dx memo with
            | .error e => .error e
            | .ok (ii, jj, st2) =>
              let Hf : NDArr R := boolToR Hm
              -- lines 106-111: first and second moments
              match ewMul ii Hf with
              | .error e => .error e
              | .ok m3 =>
                match maskedSetScalar F3 mask 3
                    ((m3.map fun x => x / A).sum2 * pdx) with
                | .error e => .error e
                | .ok F4 =>
                  match ewMul jj Hf with
                  | .error e => .error e
                  | .ok m4 =>
                    match maskedSetScalar F4 mask 4
                        ((m4.map fun x => x / A).sum2 * pdx) with
                    | .error e => .error e
                    | .ok F5 =>
                      match ewMul (ii.map fun x => x * x) Hf with
                      | .error e => .error e
                      | .ok m5 =>
                        match maskedSetScalar F5 mask 5
                            ((m5.map fun x => x / A).sum2 * pdx) with
                        | .error e => .error e
                        | .ok F6 =>
                          match ewMul (jj.map fun x => x * x) Hf with
                          | .error e => .error e
                          | .ok m6 =>
                            match maskedSetScalar F6 mask 6
                                ((m6.map fun x => x / A).sum2 * pdx) with
                            | .error e => .error e
                            | .ok F7 =>
                              -- line 114, evaluated left to right:
                              -- ii[mask], F[mask,3][0], jj[mask], F[mask,4][0]
                              match maskedVals ii mask with
                              | .error e => .error e
                              | .ok _iiv =>
                                match maskedFeat F7 mask 3 with
                                | .error e => .error e
                                | .ok l3 =>
                                  match headOrErr l3 with
                                  | .error e => .error e
                                  | .ok c3 =>
                                    match maskedVals jj mask with
                                    | .error e => .error e
                                    | .ok _jjv =>
                                      match maskedFeat F7 mask 4 with
                                      | .error e => .error e
                                      | .ok l4 =>
                                        match headOrErr l4 with
                                        | .error e => .error e
                                        | .ok c4 =>
                                          let F8 := maskedSetDistCom ext F7 mask ii jj c3 c4
                                          match scaleLoop ext sigmas.length m n dx img
                                              mask Hm memo 0 sigmas F8 st2.blurs st2.gmags with
                                          | .error e => .error e
                                          | .ok (Ffin, obs, ogs) =>
                                            .ok (Ffin, { st2 with blurs := obs, gmags := ogs })
  else .error .assertionError

/-- Pure mirror of `gmagFold` for runs in which every shape check passes:
the `gmag += term` accumulation without the `Except` wrapper. -/
def gmagFoldP (ext : FMExtern R) (sigma : R) (dx : List R) (img : NDArr R) :
    NDArr R → List Nat → NDArr R
  | g, [] => g
  | g, ax :: rest =>
    gmagFoldP ext sigma dx img
      (ew2u (fun x y => x + y) g (gmagTerm ext img dx sigma ax)) rest

/-- Pure mirror of `mkGmag` for runs in which every check passes (rank-2
image with both extents at least 2 and two spacing entries). -/
def mkGmagP (ext : FMExtern R) (img : NDArr R) (dx : List R) (sigma : R) :
    NDArr R :=
  if 0 < sigma then
    (gmagFoldP ext sigma dx img (zerosLike img) (List.range dx.length)).map ext.sqrt
  else
    (ew2u (fun x y => x + y) ((gradAxis0 img (dx.getD 0 1)).map fun x => x * x)
      ((gradAxis1 img (dx.getD 1 1)).map fun x => x * x)).map ext.sqrt

/-- Pure mirror of `writeScaleFeats` for runs in which the boolean-indexing
shape checks pass. -/
def writeScaleFeatsP (ext : FMExtern R) (mask Hm : NDArr Bool) (isig : Nat)
    (blur gmag F : NDArr R) : NDArr R :=
  maskedSetScalarP
    (maskedSetScalarP
      (maskedSetVecP (maskedSetVecP F mask (ijump isig) blur) mask
        (ijump isig + 1) gmag)
      mask (ijump isig + 2) (npMean ((maskedIdx Hm).map blur.data)))
    mask (ijump isig + 3) (npStd ext.sqrt ((maskedIdx Hm).map blur.data))

/-- Pure mirror of the per-scale loop: fold the per-scale feature writes
over an explicit list of (blur, gmag) pairs. -/
def scaleLoopP (ext : FMExtern R) (mask Hm : NDArr Bool) :
    Nat → List (NDArr R × NDArr R) → NDArr R → NDArr R
  | _, [], F => F
  | isig, bg :: rest, F =>
    scaleLoopP ext mask Hm (isig + 1) rest
      (writeScaleFeatsP ext mask Hm isig bg.1 bg.2 F)

/-- The per-scale (blur, gmag) pairs a successful run computes for a given
scale list. -/
def scalePairs (ext : FMExtern R) (img : NDArr R) (dx : List R)
    (sigmas : List R) : List (NDArr R × NDArr R) :=
  sigmas.map fun sigma => (mkBlur ext img dx sigma, mkGmagP ext img dx sigma)

/-- A cache stack (when present) has one slice per configured scale, each
of the image's shape. -/
def StackOK (nsig m n : Nat) (o : Option (List (NDArr R))) : Prop :=
  ∀ l, o = some l → l.length = nsig ∧ ∀ a ∈ l, a.shape = [m, n]

/-- Pure mirror of the pre-loop part of `__call__` (lines 71-115) for runs
in which every check passes: the feature tensor after the area, length,
isoperimetric, moment and distance-from-centroid writes, given the index
grids in force. -/
def preF (ext : FMExtern R) (sigmas : List R) (u : NDArr R)
    (mask : NDArr Bool) (ii jj : NDArr R) (dx : List R) (m n : Nat) :
    NDArr R :=
  let pdx := dx.prod
  let Hm := heaviside u
  let Hf : NDArr R := boolToR Hm
  let A : R := (countTrue Hm : R) * pdx
  let F1 := maskedSetScalarP (zeros3 m n (nfeatures sigmas)) mask 0 A
  let gmagH := (ew2u (fun x y => x + y)
    ((gradAxis0 Hf (dx.getD 0 1)).map fun x => x * x)
    ((gradAxis1 Hf (dx.getD 1 1)).map fun x => x * x)).map ext.sqrt
  let L := gmagH.sum2 * pdx
  let F2 := maskedSetScalarP F1 mask 1 L
  let F3 := maskedSetScalarP F2 mask 2 (4 * ext.pi * A / (L * L))
  let F4 := maskedSetScalarP F3 mask 3
    (((ew2u (fun x y => x * y) ii Hf).map fun x => x / A).sum2 * pdx)
  let F5 := maskedSetScalarP F4 mask 4
    (((ew2u (fun x y => x * y) jj Hf).map fun x => x / A).sum2 * pdx)
  let F6 := maskedSetScalarP F5 mask 5
    (((ew2u (fun x y => x * y) (ii.map fun x => x * x) Hf).map fun x => x / A).sum2 * pdx)
  let F7 := maskedSetScalarP F6 mask 6
    (((ew2u (fun x y => x * y) (jj.map fun x => x * x) Hf).map fun x => x / A).sum2 * pdx)
  maskedSetDistCom ext F7 mask ii jj
    (F7.data ((maskedIdx mask).headI ++ [3]))
    (F7.data ((maskedIdx mask).headI ++ [4]))

/-- Compatibility of the engine's cache state with a memoization
directive, as the caller contract of §4.2 demands: no condition for
directive `None`; existing stacks (if any) must have one slice per scale,
each of the image's shape, for `'create'`; and for `'use'` the cache must
hold exactly what a preceding `'create'` on the same image and spacing
stored — the scaled index grids and the per-scale blur and
gradient-magnitude slices. -/
def CacheOK (ext : FMExtern R) (st : FMState R) (sigmas : List R)
    (img : NDArr R) (m n : Nat) (d0 d1 : R) : Memo → Prop
  | Memo.nodirective => True
  | Memo.create => StackOK sigmas.length m n st.blurs ∧
      StackOK sigmas.length m n st.gmags
  | Memo.use => st.ii = some (mkII m n d0) ∧ st.jj = some (mkJJ m n d1) ∧
      ∃ bs gs, st.blurs = some bs ∧ st.gmags = some gs ∧
        (∀ t, t < sigmas.length →
          bs.get? t = some (mkBlur ext img [d0, d1] (sigmas.getD t 0))) ∧
        (∀ t, t < sigmas.length →
          gs.get? t = some (mkGmagP ext img [d0, d1] (sigmas.getD t 0)))

/-- The mutable objects targeted by the in-place writes of `__call__`:
the five inputs, the freshly allocated output tensor `F`, the local index
grids and gradient-magnitude accumulator of the non-memoized path, and
the four instance cache attributes. -/
inductive Ref where
  | inU
  | inImg
  | inDist
  | inMask
  | inDx
  | outF
  | locII
  | locJJ
  | locGmag
  | cacheII
  | cacheJJ
  | cacheBlurs
  | cacheGmags
  deriving DecidableEq, Repr

/-- Whether a write target is one of the five caller-owned inputs. -/
def Ref.isInput : Ref → Bool
  | .inU | .inImg | .inDist | .inMask | .inDx => true
  | _ => false

/-- The in-place write targets of one pass of the per-scale loop, in
execution order, transcribed from lines 117-166 of the source.  `hb`/`hg`
record whether `self.blurs`/`self.gmags` already exist (the `hasattr`
tests of lines 136-139); after a `'create'` iteration both exist. -/
def scaleTraceWrites (memo : Memo) (nAxes : Nat) :
    Bool → Bool → List R → List Ref
  | _, _, [] => []
  | hb, hg, sigma :: rest =>
    (match memo with
     | .nodirective =>
       -- line 127 `gmag += ...` per axis; line 129 `gmag **= 0.5`
       -- (for sigma == 0, lines 131-133 only rebind fresh locals)
       if 0 < sigma then List.replicate nAxes Ref.locGmag ++ [Ref.locGmag]
       else []
     | .create =>
       -- lines 136-139: allocate absent cache stacks
       (if hb then [] else [Ref.cacheBlurs]) ++
       (if hg then [] else [Ref.cacheGmags]) ++
       (if 0 < sigma then
         -- lines 142-143 seed the slots; lines 145-151 update them per
         -- axis; line 152 `self.gmags[isig] **= 0.5`
         [Ref.cacheBlurs, Ref.cacheGmags] ++
         (List.range nAxes).flatMap (fun _ => [Ref.cacheBlurs, Ref.cacheGmags]) ++
         [Ref.cacheGmags]
       else
         -- lines 154-156 (line 157 binds a dead fresh local)
         [Ref.cacheBlurs, Ref.cacheGmags])
     | .use => []) ++
    -- lines 163-166: the four per-scale feature assignments into F
    [Ref.outF, Ref.outF, Ref.outF, Ref.outF] ++
    scaleTraceWrites memo nAxes (hb || memo == Memo.create)
      (hg || memo == Memo.create) rest

/-- All in-place write targets of one `__call__` run, in execution order:
the area/length/isoperimetric assignments, the index-grid block, the four
moment assignments, the distance-from-centroid assignment, and the
per-scale loop. -/
def callTraceWrites (memo : Memo) (sigmas : List R) (nAxes : Nat)
    (hasBlurs hasGmags : Bool) : List Ref :=
  -- lines 80, 90, 93: F[mask, 0..2] = ...
  [Ref.outF, Ref.outF, Ref.outF] ++
  (match memo with
   -- line 97: `ii *= dx[0]; jj *= dx[1]` on fresh locals
   | .nodirective => [Ref.locII, Ref.locJJ]
   -- lines 100-101: attribute assignment then in-place scaling of the
   -- cached grids
   | .create => [Ref.cacheII, Ref.cacheJJ, Ref.cacheII, Ref.cacheJJ]
   | .use => []) ++
  -- lines 106-111: F[mask, 3..6]; line 114: F[mask, 7]
  [Ref.outF, Ref.outF, Ref.outF, Ref.outF, Ref.outF] ++
  scaleTraceWrites memo nAxes hasBlurs hasGmags sigmas

end simple_feature_map

/-- External primitives instantiated for concrete witnesses: the identity
for the square root, zero for pi, and a shape-preserving identity filter. -/
def wExt : FMExtern ℚ := ⟨id, 0, fun a _ _ _ => a⟩

/-- Concrete 2×2 level-set function with one positive pixel. -/
def cU : NDArr ℚ := ⟨[2, 2], fun p => if p = [0, 0] then 1 else -1⟩

/-- Concrete 2×2 image. -/
def cImg : NDArr ℚ := ⟨[2, 2], fun p => if p = [0, 1] then 2 else 1⟩

/-- Concrete 2×2 signed-distance input. -/
def cDist : NDArr ℚ := ⟨[2, 2], fun _ => 0⟩

/-- Concrete 3×3 signed-distance input (rank 2, but a different shape
than the other inputs). -/
def cDist3 : NDArr ℚ := ⟨[3, 3], fun _ => 7⟩

/-- Concrete rank-1 array, violating the rank-2 assertion. -/
def cU1 : NDArr ℚ := ⟨[2], fun _ => 0⟩

/-- Concrete 2×2 narrow-band mask marking one pixel. -/
def cMask : NDArr Bool := ⟨[2, 2], fun p => decide (p = [0, 0])⟩

/-- Concrete 2×2 all-false narrow-band mask. -/
def cMaskFalse : NDArr Bool := ⟨[2, 2], fun _ => false⟩

end FeatureMapDefs

section DatasetTheorems

variable {R : Type}

theorem isConfigErr_iff {α : Type} (r : Except PyErr α) :
    isConfigErr r = true ↔ r = .error .typeError ∨ r = .error .valueError := by
  cases r with
  | ok a => simp [isConfigErr]
  | error e => cases e <;> simp [isConfigErr]

theorem validatePair_bad (ndim : Nat) (img seg : DArr R) (h : badPair img seg) :
    isConfigErr (validatePair ndim img seg) = true := by
  unfold validatePair
  split_ifs with h1 h2 h3 h4 h5
  · rfl
  · rfl
  · rfl
  · rfl
  · rfl
  · rcases h with h | h | h
    · exact absurd h h1
    · exact absurd h h2
    · exact absurd h h5

theorem validatePair_cases (ndim : Nat) (img seg : DArr R) :
    validatePair ndim img seg = .ok () ∨
      isConfigErr (validatePair ndim img seg) = true := by
  unfold validatePair
  split_ifs <;> simp [isConfigErr]

theorem validateExamples_bad (ndim : Nat) :
    ∀ (l1 l2 : List (DArr R)), (∃ p ∈ l1.zip l2, badPair p.1 p.2) →
      isConfigErr (validateExamples ndim l1 l2) = true := by
  intro l1
  induction l1 with
  | nil => intro l2 h; simp at h
  | cons a as ih =>
    intro l2 h
    cases l2 with
    | nil => simp at h
    | cons b bs =>
      rcases h with ⟨p, hp, hbad⟩
      rw [List.zip_cons_cons, List.mem_cons] at hp
      rcases hp with hp | hp
      · subst hp
        have hc := validatePair_bad ndim a b hbad
        rw [isConfigErr_iff] at hc
        rcases hc with hc | hc <;> simp [validateExamples, hc, isConfigErr]
      · rcases validatePair_cases ndim a b with hok | hcfg
        · have := ih bs ⟨p, hp, hbad⟩
          simpa [validateExamples, hok] using this
        · rw [isConfigErr_iff] at hcfg
          rcases hcfg with hc | hc <;> simp [validateExamples, hc, isConfigErr]

/-- C4: any conversion call into a fresh destination that supplies at least
one image and violates one of the documented validation conditions
(image/segmentation count mismatch, non-float image dtype, non-bool
segmentation dtype, or a pair differing in rank or shape) fails with the
documented configuration/type error (`TypeError` or `ValueError`), and no
store value is produced. -/
theorem convert_to_hdf5_rejects_invalid [LinearOrderedField R]
    (skfmmDist : DArr R → List R → DArr R) (sqrtR : R → R)
    (imgs segs : List (DArr R)) (dxOpt : Option (List (List R)))
    (compress normalize : Bool)
    (hne : imgs ≠ [])
    (hbad : imgs.length ≠ segs.length ∨ ∃ p ∈ imgs.zip segs, badPair p.1 p.2) :
    isConfigErr
        (convert_to_hdf5 skfmmDist sqrtR false imgs segs dxOpt compress normalize)
      = true ∧
    ∀ s, convert_to_hdf5 skfmmDist sqrtR false imgs segs dxOpt compress normalize
      ≠ .ok s := by
  obtain ⟨i, is, rfl⟩ : ∃ i is, imgs = i :: is := by
    cases imgs with
    | nil => exact absurd rfl hne
    | cons i is => exact ⟨i, is, rfl⟩
  have hmain : isConfigErr
      (convert_to_hdf5 skfmmDist sqrtR false (i :: is) segs dxOpt compress normalize)
      = true := by
    by_cases hleq : (i :: is).length = segs.length
    · rcases hbad with hbad | hbad
      · exact absurd hleq hbad
      · have hval := validateExamples_bad i.ndim (i :: is) segs hbad
        rw [isConfigErr_iff] at hval
        rcases hval with hv | hv <;>
          simp [convert_to_hdf5, hleq, hv, isConfigErr,
            List.getElem?_cons_zero]
    · have hleq2 : ¬ (is.length + 1 = segs.length) := by
        simpa using hleq
      simp [convert_to_hdf5, hleq2, isConfigErr]
  refine ⟨hmain, fun s hs => ?_⟩
  rw [hs] at hmain
  simp [isConfigErr] at hmain

/-- Witness for C4: a single example whose image has integer dtype is
rejected with a configuration/type error. -/
theorem convert_to_hdf5_rejects_invalid_witness :
    (([wImg] : List (DArr ℚ)) ≠ [] ∧
      (([wImg] : List (DArr ℚ)).length ≠ [wSeg].length ∨
        ∃ p ∈ ([wImg] : List (DArr ℚ)).zip [wSeg], badPair p.1 p.2)) ∧
    isConfigErr
        (convert_to_hdf5 (fun a _ => a) id false [wImg] [wSeg] none true true)
      = true := by
  have h1 : ([wImg] : List (DArr ℚ)) ≠ [] := by simp
  have h2 : (([wImg] : List (DArr ℚ)).length ≠ [wSeg].length ∨
      ∃ p ∈ ([wImg] : List (DArr ℚ)).zip [wSeg], badPair p.1 p.2) :=
    Or.inr ⟨(wImg, wSeg), by simp, Or.inl (by simp [wImg, Dtype.float64])⟩
  exact ⟨⟨h1, h2⟩,
    (convert_to_hdf5_rejects_invalid (fun a _ => a) id [wImg] [wSeg] none true true
      h1 h2).1⟩

/-- Counterexample to C4 as stated: with an empty image list and one
segmentation the image/segmentation counts differ (0 versus 1), yet the
call does not raise the documented configuration/type error — it raises
the `IndexError` from `imgs[0].ndim` instead. -/
theorem convert_to_hdf5_empty_count_mismatch_not_config :
    isConfigErr
        (convert_to_hdf5 (fun a _ => a) id false ([] : List (DArr ℚ)) [wSeg]
          none true true)
      = false ∧
    convert_to_hdf5 (fun a _ => a) id false ([] : List (DArr ℚ)) [wSeg]
        none true true
      = .error .indexError ∧
    ([] : List (DArr ℚ)).length ≠ [wSeg].length :=
  ⟨rfl, rfl, by simp⟩

/-- C10: converting empty image and segmentation lists fails with the
out-of-range indexing error from reading `imgs[0].ndim`, not with the
count-mismatch `ValueError` (the counts, both zero, are equal), for every
choice of spacing argument and flags: conversion effectively requires at
least one example. -/
theorem convert_to_hdf5_empty_raises_index_error [LinearOrderedField R]
    (skfmmDist : DArr R → List R → DArr R) (sqrtR : R → R)
    (dxOpt : Option (List (List R))) (compress normalize : Bool) :
    convert_to_hdf5 skfmmDist sqrtR false ([] : List (DArr R)) [] dxOpt
        compress normalize
      = .error .indexError ∧
    ([] : List (DArr R)).length = ([] : List (DArr R)).length :=
  ⟨rfl, rfl⟩

theorem assignLoop_raises (datasets : Option DsAssign) (sub_keys : List Int)
    (indicators : List (List Nat)) :
    assignLoop datasets sub_keys indicators = .error .indexError := rfl

/-- C1: neither partition-assignment path can produce a partition at all.
The probabilistic path always raises (`numpy.where` on the rank-2 indicator
matrix yields a pair of index arrays, and indexing the 1-D key array with
that pair raises `IndexError`; with an oversized `subset_size` it raises
`ValueError` first), and the explicit-index path always raises `TypeError`
(`isinstance` is called with a single argument, and `self.datasets` is
`None`).  So no run of the code yields training/validation/testing key
sets, disjoint or otherwise. -/
theorem assign_examples_always_raises [LinearOrderedField R] :
    (∀ (datasets : Option DsAssign) (keys : List Int) (probabilities : List R)
        (subset_size : Option Nat) (choice : Nat → List Int)
        (multinomial : List R → Nat → List (List Nat)),
      ∃ e, assign_examples_randomly datasets keys probabilities subset_size
          choice multinomial = .error e) ∧
    (∀ training validation testing : List Int,
      assign_examples_by_indices initDatasets training validation testing
        = .error .typeError) := by
  constructor
  · intro datasets keys probabilities subset_size choice multinomial
    cases subset_size with
    | none => exact ⟨.indexError, rfl⟩
    | some k =>
      by_cases h : k > keys.length
      · exact ⟨.valueError, by simp [assign_examples_randomly, h]⟩
      · exact ⟨.indexError, by simp [assign_examples_randomly, h, assignLoop_raises]⟩
  · intro training validation testing
    cases training <;> cases validation <;> cases testing <;> rfl

/-- C5: supplying three disjoint non-empty integer index lists to
`assign_examples_by_indices` does not record them; the very first
validation line raises `TypeError` because `isinstance` is called with a
single argument. -/
theorem assign_examples_by_indices_raises_on_valid_lists :
    assign_examples_by_indices initDatasets [0] [1] [2] = .error .typeError := rfl

end DatasetTheorems

section FeatureMapTheorems

open simple_feature_map

set_option linter.unusedSectionVars false

variable {R : Type} [LinearOrderedField R]

/-- C6 counterexample: a call whose four inputs are all rank 2 but do not
share one shape (the signed-distance input is 3×3 while the others are
2×2) does not fail at all — it returns normally, because the assertion
checks only ranks and the distance array is never otherwise read. -/
theorem call_mismatched_dist_shape_succeeds :
    excOk (call wExt [0] FMState.empty cU cImg cDist3 cMask none
        Memo.nodirective) = true ∧
    cDist3.shape ≠ cImg.shape :=
  ⟨rfl, by simp [cDist3, cImg]⟩

/-- C6 amended: the only input validation performed before any feature
computation is the rank assertion of line 67 — whenever one of the four
arrays is not rank 2 the call fails immediately with the assertion
(shape) error; equality of shapes is not checked. -/
theorem call_rank_violation_assertion_error (ext : FMExtern R)
    (sigmas : List R) (st : FMState R) (u img dist : NDArr R)
    (mask : NDArr Bool) (dxOpt : Option (List R)) (memo : Memo)
    (h : ¬(u.ndim = 2 ∧ img.ndim = 2 ∧ dist.ndim = 2 ∧ mask.ndim = 2)) :
    call ext sigmas st u img dist mask dxOpt memo = .error .assertionError := by
  unfold call
  rw [if_neg h]

/-- Witness for the C6 amended theorem at a rank-1 level-set input. -/
theorem call_rank_violation_assertion_error_witness :
    ¬(cU1.ndim = 2 ∧ cImg.ndim = 2 ∧ cDist.ndim = 2 ∧ cMask.ndim = 2) ∧
    call wExt [0] FMState.empty cU1 cImg cDist cMask none Memo.nodirective
      = .error .assertionError := by
  have h : ¬(cU1.ndim = 2 ∧ cImg.ndim = 2 ∧ cDist.ndim = 2 ∧ cMask.ndim = 2) := by
    simp [cU1, NDArr.ndim]
  exact ⟨h, call_rank_violation_assertion_error wExt [0] FMState.empty cU1 cImg
    cDist cMask none Memo.nodirective h⟩

/-- C8: two calls that agree on everything but the signed-distance array
produce identical results (output tensor and cache state alike) whenever
both distance arrays are rank 2: the distance input is only touched by
the rank assertion and never read while computing any feature value. -/
theorem call_ignores_dist_values (ext : FMExtern R) (sigmas : List R)
    (st : FMState R) (u img : NDArr R) (mask : NDArr Bool)
    (dxOpt : Option (List R)) (memo : Memo) (dist1 dist2 : NDArr R)
    (h1 : dist1.ndim = 2) (h2 : dist2.ndim = 2) :
    call ext sigmas st u img dist1 mask dxOpt memo =
      call ext sigmas st u img dist2 mask dxOpt memo := by
  unfold call
  by_cases hc : u.ndim = 2 ∧ img.ndim = 2 ∧ mask.ndim = 2
  · rw [if_pos ⟨hc.1, hc.2.1, h1, hc.2.2⟩, if_pos ⟨hc.1, hc.2.1, h2, hc.2.2⟩]
  · rw [if_neg fun hcon => hc ⟨hcon.1, hcon.2.1, hcon.2.2.2⟩,
      if_neg fun hcon => hc ⟨hcon.1, hcon.2.1, hcon.2.2.2⟩]

/-- Witness for C8: swapping the all-zero 2×2 distance input for a
constant-7 3×3 one changes nothing about the call's result. -/
theorem call_ignores_dist_values_witness :
    cDist.ndim = 2 ∧ cDist3.ndim = 2 ∧
    call wExt [0] FMState.empty cU cImg cDist cMask none Memo.nodirective =
      call wExt [0] FMState.empty cU cImg cDist3 cMask none Memo.nodirective :=
  ⟨rfl, rfl, call_ignores_dist_values wExt [0] FMState.empty cU cImg cMask none
    Memo.nodirective cDist cDist3 rfl rfl⟩

/-- C2 counterexample: with four equal-shape rank-2 inputs and a mask that
is false at every pixel, the call does not return a feature tensor — the
`F[mask, 3][0]` read of line 114 indexes an empty extraction and raises
`IndexError`. -/
theorem call_all_false_mask_raises :
    call wExt [0, 3] FMState.empty cU cImg cDist cMaskFalse none
        Memo.nodirective = .error .indexError ∧
    cU.shape = cImg.shape ∧ cImg.shape = cDist.shape ∧
    cMaskFalse.shape = cImg.shape :=
  ⟨rfl, rfl, rfl, rfl⟩

theorem scaleTraceWrites_no_input (memo : Memo) (nAxes : Nat) :
    ∀ (sigmas : List R) (hb hg : Bool),
      (scaleTraceWrites memo nAxes hb hg sigmas).all (fun r => !r.isInput)
        = true := by
  intro sigmas
  have hrep : ∀ k : Nat,
      ((List.replicate k Ref.locGmag).all fun r => !r.isInput) = true := by
    intro k
    induction k with
    | zero => rfl
    | succ k ihk => simp [List.replicate_succ, Ref.isInput, ihk]
  have hfm : ∀ l : List Nat,
      (((l.flatMap fun _ => [Ref.cacheBlurs, Ref.cacheGmags]).all
        fun r => !r.isInput)) = true := by
    intro l
    induction l with
    | nil => rfl
    | cons x xs ihx =>
      simp [List.flatMap_cons, List.all_append, Ref.isInput, ihx]
  induction sigmas with
  | nil => intro hb hg; cases memo <;> rfl
  | cons sigma rest ih =>
    intro hb hg
    unfold scaleTraceWrites
    cases memo <;> by_cases hs : 0 < sigma <;> cases hb <;> cases hg <;>
      simp only [hs, ite_true, ite_false, List.all_append,
        Bool.and_eq_true] <;>
      (repeat' apply And.intro) <;>
      first
        | exact hrep _
        | exact hfm _
        | exact ih _ _
        | rfl

/-- C9: every in-place write performed by a `__call__` run targets the
freshly allocated output tensor, a local temporary of the call, or one of
the engine instance's cache attributes — never one of the five
caller-supplied inputs, which are therefore unchanged when the call
returns. -/
theorem call_writes_only_output_and_cache (memo : Memo) (sigmas : List R)
    (nAxes : Nat) (hb hg : Bool) :
    (callTraceWrites memo sigmas nAxes hb hg).all (fun r => !r.isInput)
      = true := by
  unfold callTraceWrites
  cases memo <;>
    simp only [List.all_append, Bool.and_eq_true] <;>
    (repeat' apply And.intro) <;>
    first
      | exact scaleTraceWrites_no_input _ _ _ _ _
      | rfl

@[simp] theorem maskedSetScalarP_shape {α : Type} (F : NDArr α)
    (mask : NDArr Bool) (k : Nat) (v : α) :
    (maskedSetScalarP F mask k v).shape = F.shape := rfl

@[simp] theorem maskedSetVecP_shape {α : Type} (F : NDArr α)
    (mask : NDArr Bool) (k : Nat) (src : NDArr α) :
    (maskedSetVecP F mask k src).shape = F.shape := rfl

@[simp] theorem maskedSetDistCom_shape (ext : FMExtern R) (F : NDArr R)
    (mask : NDArr Bool) (ii jj : NDArr R) (c3 c4 : R) :
    (maskedSetDistCom ext F mask ii jj c3 c4).shape = F.shape := rfl

@[simp] theorem zeros2_shape (m n : Nat) :
    (zeros2 m n : NDArr R).shape = [m, n] := rfl

@[simp] theorem zeros3_shape (m n k : Nat) :
    (zeros3 m n k : NDArr R).shape = [m, n, k] := rfl

@[simp] theorem zerosLike_shape (a : NDArr R) : (zerosLike a).shape = a.shape := rfl

@[simp] theorem ndarr_map_shape {α β : Type} (f : α → β) (a : NDArr α) :
    (a.map f).shape = a.shape := rfl

@[simp] theorem ew2u_shape {α β γ : Type} (f : α → β → γ) (a : NDArr α)
    (b : NDArr β) : (ew2u f a b).shape = a.shape := rfl

@[simp] theorem gradAxis0_shape (a : NDArr R) (d : R) :
    (gradAxis0 a d).shape = a.shape := rfl

@[simp] theorem gradAxis1_shape (a : NDArr R) (d : R) :
    (gradAxis1 a d).shape = a.shape := rfl

@[simp] theorem heaviside_shape (u : NDArr R) :
    (heaviside u).shape = u.shape := rfl

@[simp] theorem boolToR_shape (h : NDArr Bool) :
    (boolToR h : NDArr R).shape = h.shape := rfl

@[simp] theorem mkII_shape (m n : Nat) (d0 : R) :
    (mkII m n d0).shape = [m, n] := rfl

@[simp] theorem mkJJ_shape (m n : Nat) (d1 : R) :
    (mkJJ m n d1).shape = [m, n] := rfl

@[simp] theorem writeScaleFeatsP_shape (ext : FMExtern R) (mask Hm : NDArr Bool)
    (isig : Nat) (blur gmag F : NDArr R) :
    (writeScaleFeatsP ext mask Hm isig blur gmag F).shape = F.shape := rfl

theorem maskedSetScalar_ok {α : Type} (F : NDArr α) (mask : NDArr Bool)
    (k : Nat) (v : α) (h : mask.shape = F.shape.take 2) :
    maskedSetScalar F mask k v = .ok (maskedSetScalarP F mask k v) := if_pos h

theorem maskedSetVec_ok {α : Type} (F : NDArr α) (mask : NDArr Bool) (k : Nat)
    (src : NDArr α) (h1 : mask.shape = F.shape.take 2)
    (h2 : src.shape = mask.shape) :
    maskedSetVec F mask k src = .ok (maskedSetVecP F mask k src) :=
  if_pos ⟨h1, h2⟩

theorem maskedVals_ok {α : Type} (a : NDArr α) (mask : NDArr Bool)
    (h : mask.shape = a.shape) :
    maskedVals a mask = .ok ((maskedIdx mask).map a.data) := if_pos h

theorem maskedFeat_ok {α : Type} (F : NDArr α) (mask : NDArr Bool) (k : Nat)
    (h : mask.shape = F.shape.take 2) :
    maskedFeat F mask k = .ok ((maskedIdx mask).map fun p => F.data (p ++ [k])) :=
  if_pos h

theorem ewMul_ok (a b : NDArr R) (h : a.shape = b.shape) :
    ewMul a b = .ok (ew2u (fun x y => x * y) a b) := if_pos h

theorem ewAdd_ok (a b : NDArr R) (h : a.shape = b.shape) :
    ewAdd a b = .ok (ew2u (fun x y => x + y) a b) := if_pos h

theorem grad2sized_ok (a : NDArr R) (d0 d1 : R) (h0 : 2 ≤ a.dim 0)
    (h1 : 2 ≤ a.dim 1) :
    grad2sized a d0 d1 = .ok (gradAxis0 a d0, gradAxis1 a d1) :=
  if_neg (by omega)

theorem set_of_get? {α : Type} :
    ∀ (l : List α) (i : Nat) (a : α), l.get? i = some a → l.set i a = l := by
  intro l
  induction l with
  | nil => intro i a h; cases h
  | cons x xs ih =>
    intro i a h
    cases i with
    | zero =>
      obtain rfl : x = a := by simpa using h
      simp
    | succ n =>
      simp only [List.set]
      rw [ih n a (by simpa using h)]

theorem gfFold_shape (ext : FMExtern R) (sigma : R) (dx : List R)
    (hgf : ∀ a s ax o, (ext.gf1d a s ax o).shape = a.shape) :
    ∀ (axes : List Nat) (b : NDArr R),
      (gfFold ext sigma dx b axes).shape = b.shape := by
  intro axes
  induction axes with
  | nil => intro b; rfl
  | cons ax rest ih =>
    intro b
    rw [gfFold, ih, hgf]

theorem mkBlur_shape (ext : FMExtern R) (img : NDArr R) (dx : List R)
    (sigma : R)
    (hgf : ∀ a s ax o, (ext.gf1d a s ax o).shape = a.shape) :
    (mkBlur ext img dx sigma).shape = img.shape := by
  unfold mkBlur
  split
  · exact gfFold_shape ext sigma dx hgf _ img
  · rfl

theorem gmagTerm_shape (ext : FMExtern R) (img : NDArr R) (dx : List R)
    (sigma : R) (ax : Nat)
    (hgf : ∀ a s ax o, (ext.gf1d a s ax o).shape = a.shape) :
    (gmagTerm ext img dx sigma ax).shape = img.shape := by
  simp [gmagTerm, hgf]

theorem gmagFoldP_shape (ext : FMExtern R) (sigma : R) (dx : List R)
    (img : NDArr R) :
    ∀ (axes : List Nat) (g : NDArr R), g.shape = img.shape →
      (gmagFoldP ext sigma dx img g axes).shape = img.shape := by
  intro axes
  induction axes with
  | nil => intro g hg; exact hg
  | cons ax rest ih =>
    intro g hg
    rw [gmagFoldP, ih]
    simpa using hg

theorem mkGmagP_shape (ext : FMExtern R) (img : NDArr R) (dx : List R)
    (sigma : R) :
    (mkGmagP ext img dx sigma).shape = img.shape := by
  unfold mkGmagP
  split
  · rw [ndarr_map_shape, gmagFoldP_shape ext sigma dx img _ _ (by simp)]
  · simp

theorem gmagFold_ok (ext : FMExtern R) (sigma : R) (dx : List R)
    (img : NDArr R)
    (hgf : ∀ a s ax o, (ext.gf1d a s ax o).shape = a.shape) :
    ∀ (axes : List Nat) (g : NDArr R), g.shape = img.shape →
      gmagFold ext sigma dx img g axes
        = .ok (gmagFoldP ext sigma dx img g axes) := by
  intro axes
  induction axes with
  | nil => intro g hg; rfl
  | cons ax rest ih =>
    intro g hg
    rw [gmagFold, ewAdd_ok _ _ (by rw [hg, gmagTerm_shape ext img dx sigma ax hgf]),
      gmagFoldP]
    exact ih _ (by simpa using hg)

theorem mkGmag_ok (ext : FMExtern R) (img : NDArr R) (d0 d1 : R)
    (sigma : R) {m n : Nat} (himg : img.shape = [m, n]) (hm : 2 ≤ m)
    (hn : 2 ≤ n)
    (hgf : ∀ a s ax o, (ext.gf1d a s ax o).shape = a.shape) :
    mkGmag ext img [d0, d1] sigma = .ok (mkGmagP ext img [d0, d1] sigma) := by
  unfold mkGmag mkGmagP
  split
  · rw [gmagFold_ok ext sigma [d0, d1] img hgf _ _ (by simp)]
  · rw [show npGradient2 img [d0, d1] = grad2sized img d0 d1 from rfl,
      grad2sized_ok img d0 d1 (by simp [NDArr.dim, himg, hm])
        (by simp [NDArr.dim, himg, hn])]
    rfl

theorem writeScaleFeats_ok (ext : FMExtern R) (mask Hm : NDArr Bool)
    (isig : Nat) (blur gmag F : NDArr R)
    (hmF : mask.shape = F.shape.take 2) (hblur : blur.shape = mask.shape)
    (hgmag : gmag.shape = mask.shape) (hHm : Hm.shape = blur.shape) :
    writeScaleFeats ext mask Hm isig blur gmag F
      = .ok (writeScaleFeatsP ext mask Hm isig blur gmag F) := by
  unfold writeScaleFeats writeScaleFeatsP
  simp only [maskedSetVec_ok, maskedVals_ok, maskedSetScalar_ok, hmF, hblur,
    hgmag, hHm, maskedSetVecP_shape, maskedSetScalarP_shape]

theorem ijump_eq (isig : Nat) : ijump isig = 8 + isig * 4 := by
  unfold ijump nglobalseg nlocalseg nlocalimg nglobalimg
  omega

theorem maskedSetScalarP_data_ne {α : Type} (F : NDArr α) (mask : NDArr Bool)
    (k v : _) (i j k' : Nat) (h : k' ≠ k) :
    (maskedSetScalarP F mask k v).data [i, j, k'] = F.data [i, j, k'] := by
  simp [maskedSetScalarP, h]

theorem maskedSetVecP_data_ne {α : Type} (F : NDArr α) (mask : NDArr Bool)
    (k : Nat) (src : NDArr α) (i j k' : Nat) (h : k' ≠ k) :
    (maskedSetVecP F mask k src).data [i, j, k'] = F.data [i, j, k'] := by
  simp [maskedSetVecP, h]

theorem maskedSetDistCom_data_ne (ext : FMExtern R) (F : NDArr R)
    (mask : NDArr Bool) (ii jj : NDArr R) (c3 c4 : R) (i j k' : Nat)
    (h : k' ≠ 7) :
    (maskedSetDistCom ext F mask ii jj c3 c4).data [i, j, k']
      = F.data [i, j, k'] := by
  simp [maskedSetDistCom, h]

theorem writeScaleFeatsP_data_low (ext : FMExtern R) (mask Hm : NDArr Bool)
    (isig : Nat) (blur gmag F : NDArr R) (i j k : Nat) (h : k < ijump isig) :
    (writeScaleFeatsP ext mask Hm isig blur gmag F).data [i, j, k]
      = F.data [i, j, k] := by
  have hij := ijump_eq isig
  unfold writeScaleFeatsP
  rw [maskedSetScalarP_data_ne _ _ _ _ i j k (by omega),
    maskedSetScalarP_data_ne _ _ _ _ i j k (by omega),
    maskedSetVecP_data_ne _ _ _ _ i j k (by omega),
    maskedSetVecP_data_ne _ _ _ _ i j k (by omega)]

theorem scaleLoopP_shape (ext : FMExtern R) (mask Hm : NDArr Bool) :
    ∀ (pairs : List (NDArr R × NDArr R)) (isig : Nat) (F : NDArr R),
      (scaleLoopP ext mask Hm isig pairs F).shape = F.shape := by
  intro pairs
  induction pairs with
  | nil => intro isig F; rfl
  | cons bg rest ih =>
    intro isig F
    rw [scaleLoopP, ih, writeScaleFeatsP_shape]

theorem scaleLoopP_data_low (ext : FMExtern R) (mask Hm : NDArr Bool) :
    ∀ (pairs : List (NDArr R × NDArr R)) (isig : Nat) (F : NDArr R)
      (i j k : Nat), k < ijump isig →
      (scaleLoopP ext mask Hm isig pairs F).data [i, j, k]
        = F.data [i, j, k] := by
  intro pairs
  induction pairs with
  | nil => intros; rfl
  | cons bg rest ih =>
    intro isig F i j k hk
    have h1 := ijump_eq isig
    have h2 := ijump_eq (isig + 1)
    rw [scaleLoopP, ih (isig + 1) _ i j k (by omega),
      writeScaleFeatsP_data_low ext mask Hm isig _ _ F i j k hk]

theorem stackGet_ok (s : List (NDArr R)) (i : Nat) (a : NDArr R)
    (h : s.get? i = some a) : stackGet s i = .ok a := by
  unfold stackGet listGetE
  rw [h]

theorem stackSet_ok (s : List (NDArr R)) (i : Nat) (aOld a : NDArr R)
    (h : s.get? i = some aOld) (hsh : a.shape = aOld.shape) :
    stackSet s i a = .ok (s.set i a) := by
  unfold stackSet
  rw [h]
  show (if a.shape = aOld.shape then Except.ok (s.set i a)
    else Except.error PyErr.valueError) = Except.ok (s.set i a)
  rw [if_pos hsh]

theorem createAxes_spec (ext : FMExtern R) (sigma : R) (dx : List R)
    (img : NDArr R) (isig : Nat) {m n : Nat} (himg : img.shape = [m, n])
    (hgf : ∀ a s ax o, (ext.gf1d a s ax o).shape = a.shape) :
    ∀ (axes : List Nat) (bs gs : List (NDArr R)) (b g : NDArr R),
      bs.get? isig = some b → b.shape = [m, n] →
      gs.get? isig = some g → g.shape = [m, n] →
      createAxes ext sigma dx img isig bs gs axes
        = .ok (bs.set isig (gfFold ext sigma dx b axes),
            gs.set isig (gmagFoldP ext sigma dx img g axes)) := by
  intro axes
  induction axes with
  | nil =>
    intro bs gs b g hb hbs hg hgs
    rw [createAxes, gfFold, gmagFoldP, set_of_get? bs isig b hb,
      set_of_get? gs isig g hg]
  | cons ax rest ih =>
    intro bs gs b g hb hbs hg hgs
    have hblen : isig < bs.length := by
      rcases List.get?_eq_some.mp hb with ⟨h, _⟩
      exact h
    have hglen : isig < gs.length := by
      rcases List.get?_eq_some.mp hg with ⟨h, _⟩
      exact h
    rw [createAxes, gfFold, gmagFoldP]
    simp only [stackGet_ok bs isig b hb,
      stackSet_ok bs isig b (ext.gf1d b (sigma / dx.getD ax 0) ax 0) hb
        (hgf _ _ _ _),
      stackGet_ok gs isig g hg,
      ewAdd_ok g (gmagTerm ext img dx sigma ax)
        (by rw [hgs, gmagTerm_shape ext img dx sigma ax hgf, himg]),
      stackSet_ok gs isig g
        (ew2u (fun x y => x + y) g (gmagTerm ext img dx sigma ax)) hg
        (by simp),
      ih (bs.set isig (ext.gf1d b (sigma / dx.getD ax 0) ax 0))
        (gs.set isig (ew2u (fun x y => x + y) g (gmagTerm ext img dx sigma ax)))
        (ext.gf1d b (sigma / dx.getD ax 0) ax 0)
        (ew2u (fun x y => x + y) g (gmagTerm ext img dx sigma ax))
        (List.get?_set_eq_of_lt _ hblen) (by rw [hgf, hbs])
        (List.get?_set_eq_of_lt _ hglen) (by simpa using hgs),
      List.set_set]

theorem createScale_spec (ext : FMExtern R) (sigma : R) (d0 d1 : R)
    (img : NDArr R) (isig : Nat) {m n : Nat} (himg : img.shape = [m, n])
    (hm : 2 ≤ m) (hn : 2 ≤ n)
    (hgf : ∀ a s ax o, (ext.gf1d a s ax o).shape = a.shape)
    (bs gs : List (NDArr R)) (bOld gOld : NDArr R)
    (hb : bs.get? isig = some bOld) (hbs : bOld.shape = [m, n])
    (hg : gs.get? isig = some gOld) (hgs : gOld.shape = [m, n]) :
    createScale ext sigma [d0, d1] img isig bs gs
      = .ok (bs.set isig (mkBlur ext img [d0, d1] sigma),
          gs.set isig (mkGmagP ext img [d0, d1] sigma)) := by
  have hblen : isig < bs.length := by
    rcases List.get?_eq_some.mp hb with ⟨h, _⟩
    exact h
  have hglen : isig < gs.length := by
    rcases List.get?_eq_some.mp hg with ⟨h, _⟩
    exact h
  by_cases hs : 0 < sigma
  · have hB : mkBlur ext img [d0, d1] sigma
        = gfFold ext sigma [d0, d1] img (List.range 2) := by
      rw [mkBlur, if_pos hs]
      rfl
    have hG : mkGmagP ext img [d0, d1] sigma
        = (gmagFoldP ext sigma [d0, d1] img (zerosLike img)
            (List.range 2)).map ext.sqrt := by
      rw [mkGmagP, if_pos hs]
      rfl
    unfold createScale
    rw [if_pos hs]
    simp only [
      stackSet_ok bs isig bOld img hb (by rw [himg, hbs]),
      stackSet_ok gs isig gOld (zerosLike img) hg
        (by rw [zerosLike_shape, himg, hgs]),
      show (List.range ([d0, d1] : List R).length) = List.range 2 from rfl,
      createAxes_spec ext sigma [d0, d1] img isig himg hgf (List.range 2)
        (bs.set isig img) (gs.set isig (zerosLike img)) img (zerosLike img)
        (List.get?_set_eq_of_lt _ (by simpa using hblen)) himg
        (List.get?_set_eq_of_lt _ (by simpa using hglen)) (by simpa using himg),
      List.set_set,
      stackGet_ok (gs.set isig (gmagFoldP ext sigma [d0, d1] img
          (zerosLike img) (List.range 2))) isig
        (gmagFoldP ext sigma [d0, d1] img (zerosLike img) (List.range 2))
        (List.get?_set_eq_of_lt _ (by simpa using hglen)),
      stackSet_ok (gs.set isig (gmagFoldP ext sigma [d0, d1] img
          (zerosLike img) (List.range 2))) isig
        (gmagFoldP ext sigma [d0, d1] img (zerosLike img) (List.range 2))
        ((gmagFoldP ext sigma [d0, d1] img (zerosLike img)
          (List.range 2)).map ext.sqrt)
        (List.get?_set_eq_of_lt _ (by simpa using hglen)) (ndarr_map_shape _ _),
      hB, hG]
  · have hB : mkBlur ext img [d0, d1] sigma = img := by
      rw [mkBlur, if_neg hs]
    unfold createScale
    rw [if_neg hs]
    simp only [
      stackSet_ok bs isig bOld img hb (by rw [himg, hbs]),
      show npGradient2 img [d0, d1] = grad2sized img d0 d1 from rfl,
      grad2sized_ok img d0 d1 (by simp [NDArr.dim, himg, hm])
        (by simp [NDArr.dim, himg, hn]),
      stackSet_ok gs isig gOld ((ew2u (fun x y => x + y)
        ((gradAxis0 img d0).map fun x => x * x)
        ((gradAxis1 img d1).map fun x => x * x)).map ext.sqrt) hg
        (by simp [himg, hgs]),
      hB,
      show mkGmagP ext img [d0, d1] sigma = (ew2u (fun x y => x + y)
        ((gradAxis0 img d0).map fun x => x * x)
        ((gradAxis1 img d1).map fun x => x * x)).map ext.sqrt from by
        rw [mkGmagP, if_neg hs]
        rfl]

theorem scaleLoopNone_spec (ext : FMExtern R) {m n : Nat} (d0 d1 : R)
    (nsig : Nat) (img : NDArr R) (mask Hm : NDArr Bool)
    (himg : img.shape = [m, n]) (hmask : mask.shape = [m, n])
    (hHm : Hm.shape = [m, n]) (hm : 2 ≤ m) (hn : 2 ≤ n)
    (hgf : ∀ a s ax o, (ext.gf1d a s ax o).shape = a.shape) :
    ∀ (rest : List R) (isig : Nat) (F : NDArr R)
      (obs ogs : Option (List (NDArr R))),
      mask.shape = F.shape.take 2 →
      scaleLoop ext nsig m n [d0, d1] img mask Hm Memo.nodirective isig rest F
          obs ogs
        = .ok (scaleLoopP ext mask Hm isig (scalePairs ext img [d0, d1] rest) F,
            obs, ogs) := by
  intro rest
  induction rest with
  | nil => intros; rfl
  | cons sigma rest ih =>
    intro isig F obs ogs hmF
    rw [scaleLoop, scalePairs, List.map_cons]
    simp only [mkGmag_ok ext img d0 d1 sigma himg hm hn hgf,
      writeScaleFeats_ok ext mask Hm isig (mkBlur ext img [d0, d1] sigma)
        (mkGmagP ext img [d0, d1] sigma) F hmF
        (by rw [mkBlur_shape ext img _ sigma hgf, himg, hmask])
        (by rw [mkGmagP_shape, himg, hmask])
        (by rw [hHm, mkBlur_shape ext img _ sigma hgf, himg]),
      ih (isig + 1)
        (writeScaleFeatsP ext mask Hm isig (mkBlur ext img [d0, d1] sigma)
          (mkGmagP ext img [d0, d1] sigma) F) obs ogs (by simpa using hmF),
      scaleLoopP, scalePairs]

theorem scaleLoopUse_spec (ext : FMExtern R) {m n : Nat} (d0 d1 : R)
    (nsig : Nat) (img : NDArr R) (mask Hm : NDArr Bool)
    (himg : img.shape = [m, n]) (hmask : mask.shape = [m, n])
    (hHm : Hm.shape = [m, n])
    (hgf : ∀ a s ax o, (ext.gf1d a s ax o).shape = a.shape) :
    ∀ (rest : List R) (isig : Nat) (F : NDArr R) (bs gs : List (NDArr R)),
      mask.shape = F.shape.take 2 →
      (∀ t, t < rest.length → bs.get? (isig + t)
        = some (mkBlur ext img [d0, d1] (rest.getD t 0))) →
      (∀ t, t < rest.length → gs.get? (isig + t)
        = some (mkGmagP ext img [d0, d1] (rest.getD t 0))) →
      scaleLoop ext nsig m n [d0, d1] img mask Hm Memo.use isig rest F
          (some bs) (some gs)
        = .ok (scaleLoopP ext mask Hm isig (scalePairs ext img [d0, d1] rest) F,
            some bs, some gs) := by
  intro rest
  induction rest with
  | nil => intros; rfl
  | cons sigma rest ih =>
    intro isig F bs gs hmF hbs hgs
    have hb0 : bs.get? isig = some (mkBlur ext img [d0, d1] sigma) := by
      have h := hbs 0 (by simp)
      simpa using h
    have hg0 : gs.get? isig = some (mkGmagP ext img [d0, d1] sigma) := by
      have h := hgs 0 (by simp)
      simpa using h
    have hbs2 : ∀ t, t < rest.length → bs.get? (isig + 1 + t)
        = some (mkBlur ext img [d0, d1] (rest.getD t 0)) := by
      intro t ht
      have h := hbs (t + 1) (by simpa using Nat.succ_lt_succ ht)
      rw [show isig + 1 + t = isig + (t + 1) from by omega]
      simpa using h
    have hgs2 : ∀ t, t < rest.length → gs.get? (isig + 1 + t)
        = some (mkGmagP ext img [d0, d1] (rest.getD t 0)) := by
      intro t ht
      have h := hgs (t + 1) (by simpa using Nat.succ_lt_succ ht)
      rw [show isig + 1 + t = isig + (t + 1) from by omega]
      simpa using h
    rw [scaleLoop, scalePairs, List.map_cons]
    simp only [stackGet_ok bs isig _ hb0, stackGet_ok gs isig _ hg0,
      writeScaleFeats_ok ext mask Hm isig (mkBlur ext img [d0, d1] sigma)
        (mkGmagP ext img [d0, d1] sigma) F hmF
        (by rw [mkBlur_shape ext img _ sigma hgf, himg, hmask])
        (by rw [mkGmagP_shape, himg, hmask])
        (by rw [hHm, mkBlur_shape ext img _ sigma hgf, himg]),
      scaleLoopP, scalePairs,
      ih (isig + 1)
        (writeScaleFeatsP ext mask Hm isig (mkBlur ext img [d0, d1] sigma)
          (mkGmagP ext img [d0, d1] sigma) F) bs gs
        (by simpa using hmF) hbs2 hgs2]

theorem stackok_getD {nsig m n : Nat} (o : Option (List (NDArr R)))
    (hOK : StackOK nsig m n o) :
    StackOK nsig m n (some (o.getD (List.replicate nsig (zeros2 m n)))) := by
  cases o with
  | none =>
    intro l hl
    obtain rfl : List.replicate nsig (zeros2 m n) = l := by simpa using hl
    constructor
    · simp
    · intro a ha
      rw [List.eq_of_mem_replicate ha]
      rfl
  | some l0 =>
    intro l hl
    obtain rfl : l0 = l := by simpa using hl
    exact hOK l0 rfl

theorem stackok_slot {nsig m n : Nat} (o : Option (List (NDArr R)))
    (hOK : StackOK nsig m n o) (isig : Nat) (h : isig < nsig) :
    ∃ x, (o.getD (List.replicate nsig (zeros2 m n))).get? isig = some x ∧
      x.shape = [m, n] := by
  obtain ⟨hlen, hsh⟩ := stackok_getD o hOK _ rfl
  have hlt : isig < (o.getD (List.replicate nsig (zeros2 m n))).length := by
    omega
  rcases hx : (o.getD (List.replicate nsig (zeros2 m n))).get? isig with _ | x
  · rw [List.get?_eq_none] at hx
    omega
  · exact ⟨x, rfl, hsh x (List.get?_mem hx)⟩

theorem stackok_set {nsig m n : Nat} (l : List (NDArr R)) (i : Nat)
    (a : NDArr R) (hOK : StackOK nsig m n (some l)) (ha : a.shape = [m, n]) :
    StackOK nsig m n (some (l.set i a)) := by
  intro l2 h2
  obtain rfl : l.set i a = l2 := by simpa using h2
  obtain ⟨hlen, hsh⟩ := hOK l rfl
  constructor
  · simpa using hlen
  · intro x hx
    rcases List.mem_or_eq_of_mem_set hx with hx | rfl
    · exact hsh x hx
    · exact ha

theorem scaleLoopCreate_spec (ext : FMExtern R) {m n : Nat} (d0 d1 : R)
    (nsig : Nat) (img : NDArr R) (mask Hm : NDArr Bool)
    (himg : img.shape = [m, n]) (hmask : mask.shape = [m, n])
    (hHm : Hm.shape = [m, n]) (hm : 2 ≤ m) (hn : 2 ≤ n)
    (hgf : ∀ a s ax o, (ext.gf1d a s ax o).shape = a.shape) :
    ∀ (rest : List R) (isig : Nat) (F : NDArr R)
      (obs ogs : Option (List (NDArr R))),
      mask.shape = F.shape.take 2 →
      StackOK nsig m n obs → StackOK nsig m n ogs →
      isig + rest.length ≤ nsig →
      ∃ obs2 ogs2,
        scaleLoop ext nsig m n [d0, d1] img mask Hm Memo.create isig rest F
            obs ogs
          = .ok (scaleLoopP ext mask Hm isig
              (scalePairs ext img [d0, d1] rest) F, obs2, ogs2) ∧
        StackOK nsig m n obs2 ∧ StackOK nsig m n ogs2 ∧
        (rest = [] → obs2 = obs ∧ ogs2 = ogs) ∧
        (rest ≠ [] → ∃ bs2 gs2, obs2 = some bs2 ∧ ogs2 = some gs2 ∧
          (∀ s, s < isig →
            bs2.get? s
              = (obs.getD (List.replicate nsig (zeros2 m n))).get? s ∧
            gs2.get? s
              = (ogs.getD (List.replicate nsig (zeros2 m n))).get? s) ∧
          (∀ t, t < rest.length →
            bs2.get? (isig + t)
              = some (mkBlur ext img [d0, d1] (rest.getD t 0)) ∧
            gs2.get? (isig + t)
              = some (mkGmagP ext img [d0, d1] (rest.getD t 0)))) := by
  intro rest
  induction rest with
  | nil =>
    intro isig F obs ogs hmF hOK gOK hle
    exact ⟨obs, ogs, rfl, hOK, gOK, fun _ => ⟨rfl, rfl⟩,
      fun h => absurd rfl h⟩
  | cons sigma rest ih =>
    intro isig F obs ogs hmF hOK gOK hle
    have hisig : isig < nsig := by
      simp only [List.length_cons] at hle
      omega
    obtain ⟨bOld, hbOld, hbOldsh⟩ := stackok_slot obs hOK isig hisig
    obtain ⟨gOld, hgOld, hgOldsh⟩ := stackok_slot ogs gOK isig hisig
    have hblen : isig < (obs.getD (List.replicate nsig (zeros2 m n))).length := by
      rcases List.get?_eq_some.mp hbOld with ⟨h, _⟩
      exact h
    have hglen : isig < (ogs.getD (List.replicate nsig (zeros2 m n))).length := by
      rcases List.get?_eq_some.mp hgOld with ⟨h, _⟩
      exact h
    have hOKb1 : StackOK nsig m n (some
        ((obs.getD (List.replicate nsig (zeros2 m n))).set isig
          (mkBlur ext img [d0, d1] sigma))) :=
      stackok_set _ isig _ (stackok_getD obs hOK)
        (by rw [mkBlur_shape ext img _ sigma hgf, himg])
    have hOKg1 : StackOK nsig m n (some
        ((ogs.getD (List.replicate nsig (zeros2 m n))).set isig
          (mkGmagP ext img [d0, d1] sigma))) :=
      stackok_set _ isig _ (stackok_getD ogs gOK)
        (by rw [mkGmagP_shape, himg])
    obtain ⟨obs3, ogs3, hloop, hOK3, gOK3, hnil3, hcons3⟩ :=
      ih (isig + 1)
        (writeScaleFeatsP ext mask Hm isig (mkBlur ext img [d0, d1] sigma)
          (mkGmagP ext img [d0, d1] sigma) F)
        (some ((obs.getD (List.replicate nsig (zeros2 m n))).set isig
          (mkBlur ext img [d0, d1] sigma)))
        (some ((ogs.getD (List.replicate nsig (zeros2 m n))).set isig
          (mkGmagP ext img [d0, d1] sigma)))
        (by simpa using hmF) hOKb1 hOKg1
        (by simp only [List.length_cons] at hle; omega)
    refine ⟨obs3, ogs3, ?_, hOK3, gOK3, fun h => by simp at h, fun _ => ?_⟩
    · rw [scaleLoop, scalePairs, List.map_cons]
      simp only [
        createScale_spec ext sigma d0 d1 img isig himg hm hn hgf
          (obs.getD (List.replicate nsig (zeros2 m n)))
          (ogs.getD (List.replicate nsig (zeros2 m n)))
          bOld gOld hbOld hbOldsh hgOld hgOldsh,
        stackGet_ok ((obs.getD (List.replicate nsig (zeros2 m n))).set isig
            (mkBlur ext img [d0, d1] sigma)) isig
          (mkBlur ext img [d0, d1] sigma)
          (List.get?_set_eq_of_lt _ hblen),
        stackGet_ok ((ogs.getD (List.replicate nsig (zeros2 m n))).set isig
            (mkGmagP ext img [d0, d1] sigma)) isig
          (mkGmagP ext img [d0, d1] sigma)
          (List.get?_set_eq_of_lt _ hglen),
        writeScaleFeats_ok ext mask Hm isig (mkBlur ext img [d0, d1] sigma)
          (mkGmagP ext img [d0, d1] sigma) F hmF
          (by rw [mkBlur_shape ext img _ sigma hgf, himg, hmask])
          (by rw [mkGmagP_shape, himg, hmask])
          (by rw [hHm, mkBlur_shape ext img _ sigma hgf, himg]),
        hloop, scaleLoopP, scalePairs]
    · rcases rest with _ | ⟨sigma2, rest2⟩
      · obtain ⟨hb3, hg3⟩ := hnil3 rfl
        refine ⟨_, _, hb3, hg3, ?_, ?_⟩
        · intro s hs
          constructor
          · rw [List.get?_set_ne _ _ (by omega)]
          · rw [List.get?_set_ne _ _ (by omega)]
        · intro t ht
          simp only [List.length_cons, List.length_nil] at ht
          obtain rfl : t = 0 := by omega
          constructor
          · rw [show isig + 0 = isig from by omega,
              List.get?_set_eq_of_lt _ hblen]
            rfl
          · rw [show isig + 0 = isig from by omega,
              List.get?_set_eq_of_lt _ hglen]
            rfl
      · obtain ⟨bs2, gs2, hb3, hg3, hbelow, hslots⟩ := hcons3 (by simp)
        refine ⟨bs2, gs2, hb3, hg3, ?_, ?_⟩
        · intro s hs
          obtain ⟨hbb, hgg⟩ := hbelow s (by omega)
          constructor
          · rw [hbb]
            simp only [Option.getD_some]
            rw [List.get?_set_ne _ _ (by omega)]
          · rw [hgg]
            simp only [Option.getD_some]
            rw [List.get?_set_ne _ _ (by omega)]
        · intro t ht
          rcases t with _ | t2
          · obtain ⟨hbb, hgg⟩ := hbelow isig (by omega)
            constructor
            · rw [show isig + 0 = isig from by omega, hbb]
              simp only [Option.getD_some]
              rw [List.get?_set_eq_of_lt _ hblen]
              rfl
            · rw [show isig + 0 = isig from by omega, hgg]
              simp only [Option.getD_some]
              rw [List.get?_set_eq_of_lt _ hglen]
              rfl
          · have hsl := hslots t2 (by simp only [List.length_cons] at ht ⊢; omega)
            constructor
            · rw [show isig + (t2 + 1) = isig + 1 + t2 from by omega]
              simpa using hsl.1
            · rw [show isig + (t2 + 1) = isig + 1 + t2 from by omega]
              simpa using hsl.2

theorem memoGrids_none (st : FMState R) (m n : Nat) (d0 d1 : R) :
    memoGrids st m n [d0, d1] Memo.nodirective
      = .ok (mkII m n d0, mkJJ m n d1, st) := rfl

theorem memoGrids_create (st : FMState R) (m n : Nat) (d0 d1 : R) :
    memoGrids st m n [d0, d1] Memo.create
      = .ok (mkII m n d0, mkJJ m n d1,
          { st with ii := some (mkII m n d0), jj := some (mkJJ m n d1) }) := rfl

theorem memoGrids_use (st : FMState R) (m n : Nat) (dx : List R)
    (ii jj : NDArr R) (hii : st.ii = some ii) (hjj : st.jj = some jj) :
    memoGrids st m n dx Memo.use = .ok (ii, jj, st) := by
  unfold memoGrids
  rw [hii, hjj]

theorem call_none_spec (ext : FMExtern R) (sigmas : List R) (st : FMState R)
    (u img dist : NDArr R) (mask : NDArr Bool) (dxOpt : Option (List R))
    {m n : Nat} {d0 d1 : R}
    (hu : u.shape = [m, n]) (himg : img.shape = [m, n])
    (hmask : mask.shape = [m, n]) (hdist : dist.ndim = 2)
    (hm : 2 ≤ m) (hn : 2 ≤ n)
    (hdx : dxOpt.getD (List.replicate 2 1) = [d0, d1])
    (hmne : maskedIdx mask ≠ [])
    (hgf : ∀ a s ax o, (ext.gf1d a s ax o).shape = a.shape) :
    call ext sigmas st u img dist mask dxOpt Memo.nodirective
      = .ok (scaleLoopP ext mask (heaviside u) 0
          (scalePairs ext img [d0, d1] sigmas)
          (preF ext sigmas u mask (mkII m n d0) (mkJJ m n d1) [d0, d1] m n),
          st) := by
  obtain ⟨p0, ps, hmi⟩ : ∃ p0 ps, maskedIdx mask = p0 :: ps := by
    rcases h : maskedIdx mask with _ | ⟨p0, ps⟩
    · exact absurd h hmne
    · exact ⟨p0, ps, rfl⟩
  unfold call
  rw [if_pos ⟨by simp [NDArr.ndim, hu], by simp [NDArr.ndim, himg], hdist,
    by simp [NDArr.ndim, hmask]⟩]
  simp only [hdx, NDArr.dim, himg, List.getD_cons_zero, List.getD_cons_succ,
    List.getD_nil]
  simp only [maskedSetScalar_ok, maskedSetVec_ok, maskedVals_ok, maskedFeat_ok,
    ewMul_ok, hmask, maskedSetScalarP_shape, maskedSetVecP_shape,
    maskedSetDistCom_shape, zeros3_shape, heaviside_shape, boolToR_shape,
    mkII_shape, mkJJ_shape, ndarr_map_shape, hu, List.take_succ_cons,
    List.take_zero,
    show npGradient2 (boolToR (heaviside u) : NDArr R) [d0, d1]
        = grad2sized (boolToR (heaviside u)) d0 d1 from rfl,
    grad2sized_ok (boolToR (heaviside u) : NDArr R) d0 d1
      (by simp [NDArr.dim, hu, hm]) (by simp [NDArr.dim, hu, hn]),
    memoGrids_none, hmi, List.map_cons, headOrErr,
    scaleLoopNone_spec ext d0 d1 sigmas.length img mask (heaviside u) himg
      hmask (by simp [hu]) hm hn hgf sigmas,
    preF, List.headI, List.getD_cons_zero, List.getD_cons_succ, List.getD_nil]

theorem call_create_spec (ext : FMExtern R) (sigmas : List R) (st : FMState R)
    (u img dist : NDArr R) (mask : NDArr Bool) (dxOpt : Option (List R))
    {m n : Nat} {d0 d1 : R}
    (hu : u.shape = [m, n]) (himg : img.shape = [m, n])
    (hmask : mask.shape = [m, n]) (hdist : dist.ndim = 2)
    (hm : 2 ≤ m) (hn : 2 ≤ n)
    (hdx : dxOpt.getD (List.replicate 2 1) = [d0, d1])
    (hmne : maskedIdx mask ≠ [])
    (hgf : ∀ a s ax o, (ext.gf1d a s ax o).shape = a.shape)
    (hOK : StackOK sigmas.length m n st.blurs)
    (gOK : StackOK sigmas.length m n st.gmags) :
    ∃ obs2 ogs2,
      call ext sigmas st u img dist mask dxOpt Memo.create
        = .ok (scaleLoopP ext mask (heaviside u) 0
            (scalePairs ext img [d0, d1] sigmas)
            (preF ext sigmas u mask (mkII m n d0) (mkJJ m n d1) [d0, d1] m n),
            (⟨some (mkII m n d0), some (mkJJ m n d1), obs2, ogs2⟩ : FMState R)) ∧
      StackOK sigmas.length m n obs2 ∧ StackOK sigmas.length m n ogs2 ∧
      (sigmas ≠ [] → ∃ bs2 gs2, obs2 = some bs2 ∧ ogs2 = some gs2 ∧
        (∀ t, t < sigmas.length →
          bs2.get? t = some (mkBlur ext img [d0, d1] (sigmas.getD t 0)) ∧
          gs2.get? t = some (mkGmagP ext img [d0, d1] (sigmas.getD t 0)))) := by
  obtain ⟨p0, ps, hmi⟩ : ∃ p0 ps, maskedIdx mask = p0 :: ps := by
    rcases h : maskedIdx mask with _ | ⟨p0, ps⟩
    · exact absurd h hmne
    · exact ⟨p0, ps, rfl⟩
  obtain ⟨obs2, ogs2, hloop, hOK2, gOK2, hnil2, hcons2⟩ :=
    scaleLoopCreate_spec ext d0 d1 sigmas.length img mask (heaviside u) himg
      hmask (by simp [hu]) hm hn hgf sigmas 0
      (preF ext sigmas u mask (mkII m n d0) (mkJJ m n d1) [d0, d1] m n)
      st.blurs st.gmags (by simp [preF, hmask]) hOK gOK (by omega)
  simp only [preF, hmi, List.headI, List.getD_cons_zero, List.getD_cons_succ,
    List.getD_nil] at hloop
  refine ⟨obs2, ogs2, ?_, hOK2, gOK2, ?_⟩
  · unfold call
    rw [if_pos ⟨by simp [NDArr.ndim, hu], by simp [NDArr.ndim, himg], hdist,
      by simp [NDArr.ndim, hmask]⟩]
    simp only [hdx, NDArr.dim, himg, List.getD_cons_zero, List.getD_cons_succ,
      List.getD_nil]
    simp only [maskedSetScalar_ok, maskedSetVec_ok, maskedVals_ok,
      maskedFeat_ok, ewMul_ok, hmask, maskedSetScalarP_shape,
      maskedSetVecP_shape, maskedSetDistCom_shape, zeros3_shape,
      heaviside_shape, boolToR_shape, mkII_shape, mkJJ_shape, ndarr_map_shape,
      hu, List.take_succ_cons, List.take_zero,
      show npGradient2 (boolToR (heaviside u) : NDArr R) [d0, d1]
          = grad2sized (boolToR (heaviside u)) d0 d1 from rfl,
      grad2sized_ok (boolToR (heaviside u) : NDArr R) d0 d1
        (by simp [NDArr.dim, hu, hm]) (by simp [NDArr.dim, hu, hn]),
      memoGrids_create, hmi, List.map_cons, headOrErr, hloop,
      preF, List.headI, List.getD_cons_zero, List.getD_cons_succ,
      List.getD_nil]
  · intro hne
    obtain ⟨bs2, gs2, hb2, hg2, _, hslots⟩ := hcons2 hne
    exact ⟨bs2, gs2, hb2, hg2, fun t ht => by simpa using hslots t ht⟩

theorem call_use_spec (ext : FMExtern R) (sigmas : List R) (st : FMState R)
    (u img dist : NDArr R) (mask : NDArr Bool) (dxOpt : Option (List R))
    {m n : Nat} {d0 d1 : R} (bs gs : List (NDArr R))
    (hu : u.shape = [m, n]) (himg : img.shape = [m, n])
    (hmask : mask.shape = [m, n]) (hdist : dist.ndim = 2)
    (hm : 2 ≤ m) (hn : 2 ≤ n)
    (hdx : dxOpt.getD (List.replicate 2 1) = [d0, d1])
    (hmne : maskedIdx mask ≠ [])
    (hgf : ∀ a s ax o, (ext.gf1d a s ax o).shape = a.shape)
    (hii : st.ii = some (mkII m n d0)) (hjj : st.jj = some (mkJJ m n d1))
    (hbs : st.blurs = some bs) (hgs : st.gmags = some gs)
    (hbslots : ∀ t, t < sigmas.length →
      bs.get? t = some (mkBlur ext img [d0, d1] (sigmas.getD t 0)))
    (hgslots : ∀ t, t < sigmas.length →
      gs.get? t = some (mkGmagP ext img [d0, d1] (sigmas.getD t 0))) :
    call ext sigmas st u img dist mask dxOpt Memo.use
      = .ok (scaleLoopP ext mask (heaviside u) 0
          (scalePairs ext img [d0, d1] sigmas)
          (preF ext sigmas u mask (mkII m n d0) (mkJJ m n d1) [d0, d1] m n),
          st) := by
  obtain ⟨p0, ps, hmi⟩ : ∃ p0 ps, maskedIdx mask = p0 :: ps := by
    rcases h : maskedIdx mask with _ | ⟨p0, ps⟩
    · exact absurd h hmne
    · exact ⟨p0, ps, rfl⟩
  have hloop := scaleLoopUse_spec ext d0 d1 sigmas.length img mask
    (heaviside u) himg hmask (by simp [hu]) hgf sigmas 0
    (preF ext sigmas u mask (mkII m n d0) (mkJJ m n d1) [d0, d1] m n) bs gs
    (by simp [preF, hmask])
    (fun t ht => by simpa using hbslots t ht)
    (fun t ht => by simpa using hgslots t ht)
  simp only [preF, hmi, List.headI, List.getD_cons_zero, List.getD_cons_succ,
    List.getD_nil] at hloop
  unfold call
  rw [if_pos ⟨by simp [NDArr.ndim, hu], by simp [NDArr.ndim, himg], hdist,
    by simp [NDArr.ndim, hmask]⟩]
  simp only [hdx, NDArr.dim, himg, List.getD_cons_zero, List.getD_cons_succ,
    List.getD_nil]
  simp only [maskedSetScalar_ok, maskedSetVec_ok, maskedVals_ok,
    maskedFeat_ok, ewMul_ok, hmask, maskedSetScalarP_shape,
    maskedSetVecP_shape, maskedSetDistCom_shape, zeros3_shape,
    heaviside_shape, boolToR_shape, mkII_shape, mkJJ_shape, ndarr_map_shape,
    hu, List.take_succ_cons, List.take_zero,
    show npGradient2 (boolToR (heaviside u) : NDArr R) [d0, d1]
        = grad2sized (boolToR (heaviside u)) d0 d1 from rfl,
    grad2sized_ok (boolToR (heaviside u) : NDArr R) d0 d1
      (by simp [NDArr.dim, hu, hm]) (by simp [NDArr.dim, hu, hn]),
    memoGrids_use st m n [d0, d1] (mkII m n d0) (mkJJ m n d1) hii hjj,
    hbs, hgs, hmi, List.map_cons, headOrErr, hloop, preF, List.headI,
    List.getD_cons_zero, List.getD_cons_succ, List.getD_nil]
  rw [← hbs, ← hgs]

theorem maskedSetScalarP_data_eq {α : Type} (F : NDArr α) (mask : NDArr Bool)
    (k : Nat) (v : α) (i j : Nat) (h : mask.data [i, j] = true) :
    (maskedSetScalarP F mask k v).data [i, j, k] = v := by
  simp [maskedSetScalarP, h]

theorem preF_feature0 (ext : FMExtern R) (sigmas : List R) (u : NDArr R)
    (mask : NDArr Bool) (ii jj : NDArr R) (dx : List R) (m n : Nat)
    (pairs : List (NDArr R × NDArr R)) (i j : Nat)
    (h : mask.data [i, j] = true) :
    (scaleLoopP ext mask (heaviside u) 0 pairs
        (preF ext sigmas u mask ii jj dx m n)).data [i, j, 0]
      = (countTrue (heaviside u) : R) * dx.prod := by
  rw [scaleLoopP_data_low ext mask (heaviside u) pairs 0 _ i j 0
    (by rw [ijump_eq]; omega)]
  unfold preF
  rw [maskedSetDistCom_data_ne _ _ _ _ _ _ _ i j 0 (by omega),
    maskedSetScalarP_data_ne _ _ _ _ i j 0 (by omega),
    maskedSetScalarP_data_ne _ _ _ _ i j 0 (by omega),
    maskedSetScalarP_data_ne _ _ _ _ i j 0 (by omega),
    maskedSetScalarP_data_ne _ _ _ _ i j 0 (by omega),
    maskedSetScalarP_data_ne _ _ _ _ i j 0 (by omega),
    maskedSetScalarP_data_ne _ _ _ _ i j 0 (by omega),
    maskedSetScalarP_data_eq _ _ _ _ i j h]

/-- C2 amended: with a mask that selects at least one pixel, four rank-2
inputs over a grid with both extents at least 2, matching shapes for u,
image and mask, two spacing entries, a shape-preserving smoothing
primitive, and a cache state compatible with the directive, the call
returns a tensor of shape `image.shape + (nfeatures,)`, with
`nfeatures = (2 + 2)·|sigmas| + 1 + 7`.  (An all-false mask instead
raises `IndexError`: see the counterexample theorem.) -/
theorem call_shape_with_nonempty_mask (ext : FMExtern R) (sigmas : List R)
    (st : FMState R) (u img dist : NDArr R) (mask : NDArr Bool)
    (dxOpt : Option (List R)) (memo : Memo) {m n : Nat} {d0 d1 : R}
    (hu : u.shape = [m, n]) (himg : img.shape = [m, n])
    (hmask : mask.shape = [m, n]) (hdist : dist.ndim = 2)
    (hm : 2 ≤ m) (hn : 2 ≤ n)
    (hdx : dxOpt.getD (List.replicate 2 1) = [d0, d1])
    (hmne : maskedIdx mask ≠ [])
    (hgf : ∀ a s ax o, (ext.gf1d a s ax o).shape = a.shape)
    (hcache : CacheOK ext st sigmas img m n d0 d1 memo) :
    ∃ F st2, call ext sigmas st u img dist mask dxOpt memo = .ok (F, st2) ∧
      F.shape = img.shape ++ [nfeatures sigmas] ∧
      nfeatures sigmas = (2 + 2) * sigmas.length + (1 + 7) := by
  have hshape : ∀ ii jj : NDArr R,
      (scaleLoopP ext mask (heaviside u) 0
        (scalePairs ext img [d0, d1] sigmas)
        (preF ext sigmas u mask ii jj [d0, d1] m n)).shape
        = img.shape ++ [nfeatures sigmas] := by
    intro ii jj
    rw [scaleLoopP_shape]
    simp [preF, himg]
  have hnf : nfeatures sigmas = (2 + 2) * sigmas.length + (1 + 7) := by
    unfold nfeatures nlocalimg nglobalimg nlocalseg nglobalseg
    omega
  cases memo with
  | nodirective =>
    exact ⟨_, st, call_none_spec ext sigmas st u img dist mask dxOpt hu himg
      hmask hdist hm hn hdx hmne hgf, hshape _ _, hnf⟩
  | create =>
    obtain ⟨obs2, ogs2, heq, _, _, _⟩ := call_create_spec ext sigmas st u img
      dist mask dxOpt hu himg hmask hdist hm hn hdx hmne hgf hcache.1 hcache.2
    exact ⟨_, _, heq, hshape _ _, hnf⟩
  | use =>
    obtain ⟨hii, hjj, bs, gs, hbs, hgs, hbslots, hgslots⟩ := hcache
    exact ⟨_, st, call_use_spec ext sigmas st u img dist mask dxOpt bs gs hu
      himg hmask hdist hm hn hdx hmne hgf hii hjj hbs hgs hbslots hgslots,
      hshape _ _, hnf⟩

/-- Witness for the C2 amended theorem on a concrete 2×2 input with one
masked pixel and the default-style scale list `[0, 3]`. -/
theorem call_shape_with_nonempty_mask_witness :
    (cU.shape = [2, 2] ∧ cImg.shape = [2, 2] ∧ cMask.shape = [2, 2] ∧
      cDist.ndim = 2 ∧ maskedIdx cMask ≠ [] ∧
      (Option.getD (none : Option (List ℚ)) (List.replicate 2 1)
        = [(1 : ℚ), 1]) ∧
      CacheOK wExt FMState.empty [0, 3] cImg 2 2 1 1 Memo.nodirective) ∧
    ∃ F st2, call wExt [(0 : ℚ), 3] FMState.empty cU cImg cDist cMask none
        Memo.nodirective = .ok (F, st2) ∧
      F.shape = cImg.shape ++ [nfeatures [(0 : ℚ), 3]] ∧
      nfeatures [(0 : ℚ), 3] = (2 + 2) * (List.length [(0 : ℚ), 3]) + (1 + 7) := by
  refine ⟨⟨rfl, rfl, rfl, rfl, by decide, rfl, trivial⟩, ?_⟩
  exact call_shape_with_nonempty_mask wExt [0, 3] FMState.empty cU cImg cDist
    cMask none Memo.nodirective rfl rfl rfl rfl (by omega) (by omega) rfl
    (by decide) (fun _ _ _ _ => rfl) trivial

/-- C7: on valid rank-2 inputs, feature index 0 of the returned tensor
holds, at every masked pixel, the single scalar
`(number of pixels with u > 0) * (product of the spacing entries)` —
the physical area of the positive region, not its pixel count. -/
theorem call_feature0_is_scaled_area (ext : FMExtern R) (sigmas : List R)
    (st : FMState R) (u img dist : NDArr R) (mask : NDArr Bool)
    (dxOpt : Option (List R)) (memo : Memo) {m n : Nat} {d0 d1 : R}
    (hu : u.shape = [m, n]) (himg : img.shape = [m, n])
    (hmask : mask.shape = [m, n]) (hdist : dist.ndim = 2)
    (hm : 2 ≤ m) (hn : 2 ≤ n)
    (hdx : dxOpt.getD (List.replicate 2 1) = [d0, d1])
    (hmne : maskedIdx mask ≠ [])
    (hgf : ∀ a s ax o, (ext.gf1d a s ax o).shape = a.shape)
    (hcache : CacheOK ext st sigmas img m n d0 d1 memo) :
    ∃ F st2, call ext sigmas st u img dist mask dxOpt memo = .ok (F, st2) ∧
      ∀ i j, mask.data [i, j] = true →
        F.data [i, j, 0]
          = (countTrue (heaviside u) : R) * ([d0, d1] : List R).prod := by
  cases memo with
  | nodirective =>
    exact ⟨_, st, call_none_spec ext sigmas st u img dist mask dxOpt hu himg
      hmask hdist hm hn hdx hmne hgf,
      fun i j h => preF_feature0 ext sigmas u mask _ _ [d0, d1] m n _ i j h⟩
  | create =>
    obtain ⟨obs2, ogs2, heq, _, _, _⟩ := call_create_spec ext sigmas st u img
      dist mask dxOpt hu himg hmask hdist hm hn hdx hmne hgf hcache.1 hcache.2
    exact ⟨_, _, heq,
      fun i j h => preF_feature0 ext sigmas u mask _ _ [d0, d1] m n _ i j h⟩
  | use =>
    obtain ⟨hii, hjj, bs, gs, hbs, hgs, hbslots, hgslots⟩ := hcache
    exact ⟨_, st, call_use_spec ext sigmas st u img dist mask dxOpt bs gs hu
      himg hmask hdist hm hn hdx hmne hgf hii hjj hbs hgs hbslots hgslots,
      fun i j h => preF_feature0 ext sigmas u mask _ _ [d0, d1] m n _ i j h⟩

/-- Witness for C7: on the concrete input, the masked pixel's feature 0
equals the positive-pixel count times the spacing product. -/
theorem call_feature0_is_scaled_area_witness :
    (cU.shape = [2, 2] ∧ maskedIdx cMask ≠ [] ∧
      CacheOK wExt FMState.empty [(0 : ℚ)] cImg 2 2 1 1 Memo.nodirective) ∧
    ∃ F st2, call wExt [(0 : ℚ)] FMState.empty cU cImg cDist cMask none
        Memo.nodirective = .ok (F, st2) ∧
      ∀ i j, cMask.data [i, j] = true →
        F.data [i, j, 0]
          = (countTrue (heaviside cU) : ℚ) * ([1, 1] : List ℚ).prod := by
  refine ⟨⟨rfl, by decide, trivial⟩, ?_⟩
  exact call_feature0_is_scaled_area wExt [0] FMState.empty cU cImg cDist
    cMask none Memo.nodirective rfl rfl rfl rfl (by omega) (by omega) rfl
    (by decide) (fun _ _ _ _ => rfl) trivial

/-- C3: on a fixed image and spacing, a single evaluation with directive
`None` and the second call of the sequence `'create'` then `'use'` (same
u, image, mask, spacing) produce identical feature tensors — in
particular they agree at every scale-dependent feature index (index 8 and
beyond). -/
theorem call_memoization_equivalence (ext : FMExtern R) (sigmas : List R)
    (st : FMState R) (u img dist : NDArr R) (mask : NDArr Bool)
    (dxOpt : Option (List R)) {m n : Nat} {d0 d1 : R}
    (hu : u.shape = [m, n]) (himg : img.shape = [m, n])
    (hmask : mask.shape = [m, n]) (hdist : dist.ndim = 2)
    (hm : 2 ≤ m) (hn : 2 ≤ n)
    (hdx : dxOpt.getD (List.replicate 2 1) = [d0, d1])
    (hmne : maskedIdx mask ≠ [])
    (hgf : ∀ a s ax o, (ext.gf1d a s ax o).shape = a.shape)
    (hOK : StackOK sigmas.length m n st.blurs)
    (gOK : StackOK sigmas.length m n st.gmags)
    (hsne : sigmas ≠ []) :
    ∃ Fn Fc Fu st1 st2,
      call ext sigmas st u img dist mask dxOpt Memo.nodirective
        = .ok (Fn, st) ∧
      call ext sigmas st u img dist mask dxOpt Memo.create = .ok (Fc, st1) ∧
      call ext sigmas st1 u img dist mask dxOpt Memo.use = .ok (Fu, st2) ∧
      ∀ i j k, 8 ≤ k → Fu.data [i, j, k] = Fn.data [i, j, k] := by
  obtain ⟨obs2, ogs2, heqC, hOK2, gOK2, hcons⟩ := call_create_spec ext sigmas
    st u img dist mask dxOpt hu himg hmask hdist hm hn hdx hmne hgf hOK gOK
  obtain ⟨bs2, gs2, hb2, hg2, hslots⟩ := hcons hsne
  have huse := call_use_spec ext sigmas
    ⟨some (mkII m n d0), some (mkJJ m n d1), obs2, ogs2⟩ u img dist mask
    dxOpt bs2 gs2 hu himg hmask hdist hm hn hdx hmne hgf rfl rfl hb2 hg2
    (fun t ht => (hslots t ht).1) (fun t ht => (hslots t ht).2)
  exact ⟨_, _, _, _, _,
    call_none_spec ext sigmas st u img dist mask dxOpt hu himg hmask hdist
      hm hn hdx hmne hgf,
    heqC, huse, fun i j k hk => rfl⟩

/-- Witness for C3 on the concrete 2×2 input with a fresh engine and one
scale. -/
theorem call_memoization_equivalence_witness :
    (cU.shape = [2, 2] ∧ maskedIdx cMask ≠ [] ∧
      StackOK (List.length [(0 : ℚ)]) 2 2 (FMState.empty (R := ℚ)).blurs ∧
      ([(0 : ℚ)] : List ℚ) ≠ []) ∧
    ∃ Fn Fc Fu st1 st2,
      call wExt [(0 : ℚ)] FMState.empty cU cImg cDist cMask none
          Memo.nodirective = .ok (Fn, FMState.empty) ∧
      call wExt [(0 : ℚ)] FMState.empty cU cImg cDist cMask none
          Memo.create = .ok (Fc, st1) ∧
      call wExt [(0 : ℚ)] st1 cU cImg cDist cMask none Memo.use
        = .ok (Fu, st2) ∧
      ∀ i j k, 8 ≤ k → Fu.data [i, j, k] = Fn.data [i, j, k] := by
  have hstk : StackOK (List.length [(0 : ℚ)]) 2 2
      (FMState.empty (R := ℚ)).blurs := fun l h => nomatch h
  refine ⟨⟨rfl, by decide, hstk, List.cons_ne_nil 0 []⟩, ?_⟩
  exact call_memoization_equivalence wExt [0] FMState.empty cU cImg cDist
    cMask none rfl rfl rfl rfl (by omega) (by omega) rfl (by decide)
    (fun _ _ _ _ => rfl) hstk hstk (List.cons_ne_nil 0 [])

end FeatureMapTheorems

end LSML
